import Mathlib

/-! # Embedded AI Tensor Manager: the buffer store and the quantizer of `main.c`

The development embeds `init_buffer`, `destroy_buffer`, `compress_to_int8` and
`print_memory_stats` of `src/main.c` over an explicit heap and proves the
properties of the specification.

Modelling decisions, all visible in the definitions below:

* Memory is a list of blocks; a pointer is `Option Nat` (`none` is `NULL`,
  `some a` is the address of block `a`).  `malloc`/`calloc` append a block when
  the allocator grants the request; the allocator is an arbitrary sequence of
  answers (`Heap.grants`), so every theorem holds for every allocator.
* A function returns `Option`: `none` is an execution whose behaviour the C
  standard leaves undefined (an access outside a block or through `NULL`, a
  signed overflow, a conversion of an out-of-range value to `int32_t`, a
  division by zero whose infinite quotient is then converted).
* `int` and `int32_t` are 32-bit: a result outside `[INT_MIN, INT_MAX]` is
  undefined behaviour.
* `float` values are exact rationals and `+ - /` are the exact operations:
  binary32 rounding, infinities and NaN are outside the model.  `FLT_MAX` is
  the largest finite binary32 value; a float array holds values in
  `[-FLT_MAX, FLT_MAX]`.
* `round` is the C library function: nearest integer, ties away from zero.
* The `printf` calls have no effect on memory and are left out; the model of
  `print_memory_stats` returns the number it prints.
* `size_t` is 64 bits wide.
-/

namespace TensorManager

/-! ## Data structures -/

/-- The enum `BufferMode`. -/
inductive BufferMode
  | MODE_FLOAT32
  | MODE_INT8
  deriving DecidableEq, Repr

/-- The union `MemoryUnion`: one pointer slot, seen as `float*` or `int8_t*`. -/
structure MemoryUnion where
  ptr : Option Nat
  deriving DecidableEq, Repr

/-- The view `ptr_f` of the union. -/
def MemoryUnion.ptr_f (m : MemoryUnion) : Option Nat := m.ptr

/-- The view `ptr_i` of the union. -/
def MemoryUnion.ptr_i (m : MemoryUnion) : Option Nat := m.ptr

/-- The struct `MicroBuffer`. -/
structure MicroBuffer where
  dims : Option Nat
  dim_count : Int
  total_size : Int
  mode : BufferMode
  mem : MemoryUnion
  scale_factor : ℚ
  zero_pt : Int
  deriving DecidableEq, Repr

/-- One allocated block of memory. -/
inductive Block
  | header (mb : MicroBuffer)
  | int_array (xs : List Int)
  | float_array (xs : List ℚ)
  | int8_array (xs : List Int)
  | released
  deriving DecidableEq, Repr

/-- The heap: the blocks allocated so far, the answers the allocator will give
to the coming requests, and the contents of a struct that `malloc` hands out
uninitialised. -/
structure Heap where
  blocks : List Block
  grants : List Bool
  fresh : MicroBuffer
  deriving DecidableEq, Repr

/-! ## Memory operations -/

/-- The block a pointer refers to; `none` for `NULL` and for an address that was
never allocated. -/
def Heap.read (h : Heap) (p : Option Nat) : Option Block :=
  match p with
  | none => none
  | some a => h.blocks[a]?

/-- Overwrite block `a`. -/
def Heap.store (h : Heap) (a : Nat) (b : Block) : Heap :=
  ⟨h.blocks.set a b, h.grants, h.fresh⟩

/-- An allocation request answered by the allocator: a new block at the next
address when granted, `NULL` otherwise. -/
def Heap.alloc (h : Heap) (b : Block) : Heap × Option Nat :=
  match h.grants with
  | [] => (h, none)
  | true :: g => (⟨h.blocks ++ [b], g, h.fresh⟩, some h.blocks.length)
  | false :: g => (⟨h.blocks, g, h.fresh⟩, none)

/-- The call `malloc(sizeof(MicroBuffer))`: the struct is not initialised. -/
def Heap.malloc_struct (h : Heap) : Heap × Option Nat :=
  h.alloc (Block.header h.fresh)

/-- The call `calloc(count, size)` with an `int` count: a negative count converts
to a `size_t` no allocator can serve; otherwise the block is zero-filled. -/
def Heap.calloc (h : Heap) (count : Int) (zeroed : Nat → Block) : Heap × Option Nat :=
  if count < 0 then (h, none) else h.alloc (zeroed count.toNat)

/-- The struct `*p`. -/
def Heap.deref (h : Heap) (p : Option Nat) : Option MicroBuffer :=
  match h.read p with
  | some (Block.header mb) => some mb
  | _ => none

/-- An assignment `p->field = value`, given as the update of the struct. -/
def Heap.assign (h : Heap) (p : Option Nat) (f : MicroBuffer → MicroBuffer) : Option Heap :=
  match p, h.read p with
  | some a, some (Block.header mb) => some (h.store a (Block.header (f mb)))
  | _, _ => none

/-- The read `p[i]` of an `int` array. -/
def Heap.int_at (h : Heap) (p : Option Nat) (i : Nat) : Option Int :=
  match h.read p with
  | some (Block.int_array xs) => xs[i]?
  | _ => none

/-- The read `p[i]` of a `float` array. -/
def Heap.float_at (h : Heap) (p : Option Nat) (i : Nat) : Option ℚ :=
  match h.read p with
  | some (Block.float_array xs) => xs[i]?
  | _ => none

/-- The write `p[i] = v` into an `int` array. -/
def Heap.set_int (h : Heap) (p : Option Nat) (i : Nat) (v : Int) : Option Heap :=
  match p, h.read p with
  | some a, some (Block.int_array xs) =>
    if i < xs.length then some (h.store a (Block.int_array (xs.set i v))) else none
  | _, _ => none

/-- The write `p[i] = v` into an `int8_t` array. -/
def Heap.set_int8 (h : Heap) (p : Option Nat) (i : Nat) (v : Int) : Option Heap :=
  match p, h.read p with
  | some a, some (Block.int8_array xs) =>
    if i < xs.length then some (h.store a (Block.int8_array (xs.set i v))) else none
  | _, _ => none

/-! ## Machine arithmetic -/

/-- The constant `INT_MIN` of a 32-bit `int`. -/
def INT_MIN : Int := -2147483648

/-- The constant `INT_MAX` of a 32-bit `int`. -/
def INT_MAX : Int := 2147483647

/-- A result of type `int` or `int32_t`: undefined outside the 32-bit range. -/
def int32 (x : Int) : Option Int :=
  if INT_MIN ≤ x ∧ x ≤ INT_MAX then some x else none

/-- The conversion `(int8_t)x`: the low eight bits, read as a signed value. -/
def to_int8 (x : Int) : Int := (x + 128) % 256 - 128

/-- The constant `FLT_MAX` of `float.h`: `(2 - 2^-23) * 2^127`. -/
def FLT_MAX : ℚ := 340282346638528859811704183484516925440

/-- The library function `round`: nearest integer, ties away from zero. -/
def c_round (x : ℚ) : Int :=
  if 0 ≤ x then ⌊x + 1 / 2⌋ else -⌊-x + 1 / 2⌋

/-- A float division: a zero divisor gives no finite quotient. -/
def fdiv (a b : ℚ) : Option ℚ :=
  if b = 0 then none else some (a / b)

/-- The macro `MAX_Q`. -/
def MAX_Q : Int := 127

/-- The macro `MIN_Q`. -/
def MIN_Q : Int := -128

/-- The macro `CLAMP(x, low, high)`. -/
def CLAMP (x low high : Int) : Int :=
  if x > high then high else if x < low then low else x

/-- A loop `for (i = start; cond; i++) body`: the condition is evaluated again
before every iteration, on the current state.  `fuel` bounds the number of
evaluations of the condition; every loop below is run with one more than its
bound, which is enough as long as the loop does not change its own bound. -/
def for_loop {σ : Type} (cond : σ → Nat → Option Bool) (body : σ → Nat → Option σ) :
    Nat → Nat → σ → Option σ
  | 0, _, _ => none
  | fuel + 1, i, s =>
    match cond s i with
    | none => none
    | some false => some s
    | some true =>
      match body s i with
      | none => none
      | some s' => for_loop cond body fuel (i + 1) s'

/-! ## The functions of `main.c` -/

/-- The body of the loop of `init_buffer`:
`mb->dims[i] = dimensions[i]; mb->total_size *= dimensions[i];`. -/
def init_buffer_body (dimensions : Option Nat) (mb : Option Nat) (s : Heap) (i : Nat) :
    Option Heap := do
  let v ← s.int_at dimensions i
  let s1 ← s.set_int (← s.deref mb).dims i v
  let t ← int32 ((← s1.deref mb).total_size * (← s1.int_at dimensions i))
  s1.assign mb fun x => { x with total_size := t }

/-- The function `init_buffer(dimensions, rank, mode)`. -/
def init_buffer (h : Heap) (dimensions : Option Nat) (rank : Int) (mode : BufferMode) :
    Option (Heap × Option Nat) :=
  match h.malloc_struct with
  | (h1, none) => some (h1, none)
  | (h1, some a) => do
    let mb : Option Nat := some a
    let h2 ← h1.assign mb fun x => { x with dim_count := rank }
    let h3 ← h2.assign mb fun x => { x with mode := mode }
    let (h4, d) := h3.calloc rank fun n => Block.int_array (List.replicate n 0)
    let h5 ← h4.assign mb fun x => { x with dims := d }
    let h6 ← h5.assign mb fun x => { x with total_size := 1 }
    let h7 ← for_loop (fun _ i => some (decide ((i : Int) < rank)))
      (init_buffer_body dimensions mb) (rank.toNat + 1) 0 h6
    match mode with
    | BufferMode.MODE_FLOAT32 =>
      let (h8, f) := h7.calloc (← h7.deref mb).total_size
        fun n => Block.float_array (List.replicate n 0)
      let h9 ← h8.assign mb fun x => { x with mem := ⟨f⟩ }
      let h10 ← h9.assign mb fun x => { x with scale_factor := 0 }
      let h11 ← h10.assign mb fun x => { x with zero_pt := 0 }
      if (← h11.deref mb).mem.ptr_f = none then some (h11, none) else some (h11, mb)
    | BufferMode.MODE_INT8 =>
      let (h8, f) := h7.calloc (← h7.deref mb).total_size
        fun n => Block.int8_array (List.replicate n 0)
      let h9 ← h8.assign mb fun x => { x with mem := ⟨f⟩ }
      if (← h9.deref mb).mem.ptr_i = none then some (h9, none) else some (h9, mb)

/-- The condition `i < source->total_size` of the two loops of
`compress_to_int8`. -/
def below_total_size (h : Heap) (source : Option Nat) (i : Nat) : Option Bool := do
  some (decide ((i : Int) < (← h.deref source).total_size))

/-- The body of the first loop of `compress_to_int8`, on the locals
`(min_v, max_v)`. -/
def scan_body (h : Heap) (source : Option Nat) (s : ℚ × ℚ) (i : Nat) : Option (ℚ × ℚ) := do
  let val ← h.float_at (← h.deref source).mem.ptr_f i
  let min_v := if val < s.1 then val else s.1
  let max_v := if val > s.2 then val else s.2
  some (min_v, max_v)

/-- The body of the second loop of `compress_to_int8`. -/
def quantize_body (source q_buf : Option Nat) (s : Heap) (i : Nat) : Option Heap := do
  let real ← s.float_at (← s.deref source).mem.ptr_f i
  let k ← int32 (c_round (← fdiv real (← s.deref q_buf).scale_factor))
  let raw_q ← int32 (k + (← s.deref q_buf).zero_pt)
  s.set_int8 (← s.deref q_buf).mem.ptr_i i (to_int8 (CLAMP raw_q MIN_Q MAX_Q))

/-- The first loop of `compress_to_int8` (`// 1. Min/Max bul`), started from
`min_v = FLT_MAX`, `max_v = -FLT_MAX`: the locals `(min_v, max_v)` after it. -/
def find_min_max (h : Heap) (source : Option Nat) : Option (ℚ × ℚ) := do
  for_loop (fun _ i => below_total_size h source i)
    (scan_body h source) ((← h.deref source).total_size.toNat + 1) 0 (FLT_MAX, -FLT_MAX)

/-- The function `compress_to_int8(source)`. -/
def compress_to_int8 (h : Heap) (source : Option Nat) : Option (Heap × Option Nat) := do
  if (← h.deref source).mode ≠ BufferMode.MODE_FLOAT32 then some (h, none) else
  let (min_v, max_v0) ← find_min_max h source
  let max_v := if max_v0 = min_v then max_v0 + 1 / 1000 else max_v0
  let (h1, q_buf) ← init_buffer h (← h.deref source).dims (← h.deref source).dim_count
    BufferMode.MODE_INT8
  if q_buf = none then some (h1, none) else
  let h2 ← h1.assign q_buf fun x => { x with scale_factor := (max_v - min_v) / 255 }
  let k ← int32 (c_round (← fdiv (-min_v) (← h2.deref q_buf).scale_factor))
  let z ← int32 (k - 128)
  let h3 ← h2.assign q_buf fun x => { x with zero_pt := z }
  let h4 ← for_loop (fun s i => below_total_size s source i)
    (quantize_body source q_buf) ((← h3.deref source).total_size.toNat + 1) 0 h3
  some (h4, q_buf)

/-! ### Releasing memory: `free` and `destroy_buffer` -/

/-- The block is allocated and has not been released. -/
def Block.is_live : Block → Bool
  | Block.released => false
  | _ => true

/-- The number of blocks that are allocated and not released. -/
def Heap.live (h : Heap) : Nat := (h.blocks.filter Block.is_live).length

/-- The call `free(p)`: `free(NULL)` does nothing; releasing an address that was
never allocated, or twice, is undefined. -/
def Heap.free (h : Heap) (p : Option Nat) : Option Heap :=
  match p with
  | none => some h
  | some a =>
    match h.blocks[a]? with
    | none => none
    | some Block.released => none
    | some _ => some (h.store a Block.released)

/-- The function `destroy_buffer(mb)`. -/
def destroy_buffer (h : Heap) (mb : Option Nat) : Option Heap :=
  if mb ≠ none then do
    let h1 ← if (← h.deref mb).dims ≠ none then h.free (← h.deref mb).dims else some h
    let h2 ←
      if (← h1.deref mb).mode = BufferMode.MODE_FLOAT32 ∧ (← h1.deref mb).mem.ptr_f ≠ none then
        h1.free (← h1.deref mb).mem.ptr_f
      else if (← h1.deref mb).mode = BufferMode.MODE_INT8 ∧ (← h1.deref mb).mem.ptr_i ≠ none then
        h1.free (← h1.deref mb).mem.ptr_i
      else some h1
    h2.free mb
  else some h

/-! ### The memory report of `main` and `print_memory_stats` -/

/-- The width of `size_t`: 64 bits. -/
def SIZE_BITS : Nat := 64

/-- The conversion of an `int` to `size_t`. -/
def to_size_t (x : Int) : Nat := (x % 2 ^ SIZE_BITS).toNat

/-- The operator `sizeof` on `float`. -/
def SIZEOF_FLOAT : Nat := 4

/-- The operator `sizeof` on `int8_t`. -/
def SIZEOF_INT8 : Nat := 1

/-- The product of two `size_t` values. -/
def size_mul (a b : Nat) : Nat := (a * b) % 2 ^ SIZE_BITS

/-- The statement `f_size = float_buf->total_size * sizeof(float);` of `main`. -/
def float_bytes (total_size : Int) : Nat := size_mul (to_size_t total_size) SIZEOF_FLOAT

/-- The statement `i_size = int8_buf->total_size * sizeof(int8_t);` of `main`. -/
def int8_bytes (total_size : Int) : Nat := size_mul (to_size_t total_size) SIZEOF_INT8

/-- The function `print_memory_stats(size_f, size_i)`: the model returns the value
of the local `ratio`, which the function prints with `%.1f`; `none` when the
quotient `size_i / size_f` is not a finite number. -/
def print_memory_stats (size_f size_i : Nat) : Option ℚ := do
  let d ← fdiv (size_i : ℚ) (size_f : ℚ)
  some ((1 - d) * 100)

/-! ## Tensors in the heap -/

/-- Heap `h` holds at `p` the struct `mb` of a tensor of the given shape: the
rank and the dimension array agree with `shape`, every dimension is positive and
`total_size` is their product, which fits in an `int`.  A tensor of rank 0 has no
dimension to read, so its `dims` pointer is not constrained. -/
def TensorAt (h : Heap) (p : Option Nat) (mb : MicroBuffer) (shape : List Int) : Prop :=
  h.deref p = some mb ∧ mb.dim_count = shape.length ∧
    (shape = [] ∨ h.read mb.dims = some (Block.int_array shape)) ∧
    (∀ d ∈ shape, 0 < d) ∧ shape.prod = mb.total_size ∧ mb.total_size ≤ INT_MAX

/-- Heap `h` holds at `source` a Float32 tensor of the given shape whose elements
are `data`: `total_size` many finite `float` values. -/
def Float32Tensor (h : Heap) (source : Option Nat) (shape : List Int) (data : List ℚ) : Prop :=
  ∃ mb, TensorAt h source mb shape ∧ mb.mode = BufferMode.MODE_FLOAT32 ∧
    h.read mb.mem.ptr_f = some (Block.float_array data) ∧ mb.total_size = data.length ∧
    ∀ x ∈ data, -FLT_MAX ≤ x ∧ x ≤ FLT_MAX

/-- Heap `h` holds at `p` an Int8 tensor of the given shape, elements and
quantization parameters. -/
def Int8Tensor (h : Heap) (p : Option Nat) (shape : List Int) (data : List Int) (scale : ℚ)
    (zero_point : Int) : Prop :=
  ∃ mb, TensorAt h p mb shape ∧ mb.mode = BufferMode.MODE_INT8 ∧
    h.read mb.mem.ptr_i = some (Block.int8_array data) ∧ mb.total_size = data.length ∧
    mb.scale_factor = scale ∧ mb.zero_pt = zero_point

/-! ## Closed forms of what the loops compute, used by the proofs -/

/-- One iteration of the first loop of `compress_to_int8` on `(min_v, max_v)`. -/
def scan_step (s : ℚ × ℚ) (val : ℚ) : ℚ × ℚ :=
  (if val < s.1 then val else s.1, if val > s.2 then val else s.2)

/-- The locals `(min_v, max_v)` after the first loop over the elements `data`. -/
def scan (data : List ℚ) : ℚ × ℚ := data.foldl scan_step (FLT_MAX, -FLT_MAX)

/-- The local `max_v` after `if (max_v == min_v) max_v += 0.001f;`. -/
def widened (s : ℚ × ℚ) : ℚ := if s.2 = s.1 then s.2 + 1 / 1000 else s.2

/-- The value stored in `q_buf->scale_factor` for the elements `data`. -/
def scale_of (data : List ℚ) : ℚ := (widened (scan data) - (scan data).1) / 255

/-- The value stored in `q_buf->zero_pt` for the elements `data`. -/
def zero_point_of (data : List ℚ) : Int := c_round (-(scan data).1 / scale_of data) - 128

/-- The local `raw_q` for the element `x`. -/
def raw_of (data : List ℚ) (x : ℚ) : Int := c_round (x / scale_of data) + zero_point_of data

/-- The output element stored for the element `x`. -/
def quantized (data : List ℚ) (x : ℚ) : Int := to_int8 (CLAMP (raw_of data x) MIN_Q MAX_Q)

/-- The integer is a value of `int32_t`. -/
def in_int32 (x : Int) : Prop := INT_MIN ≤ x ∧ x ≤ INT_MAX

/-- The two `int32_t` results of the zero-point computation are representable. -/
def params_ok (data : List ℚ) : Prop :=
  in_int32 (c_round (-(scan data).1 / scale_of data)) ∧ in_int32 (zero_point_of data)

/-- The two `int32_t` results computed for the element `x` are representable. -/
def elem_ok (data : List ℚ) (x : ℚ) : Prop :=
  in_int32 (c_round (x / scale_of data)) ∧ in_int32 (raw_of data x)

/-- Every conversion to `int32_t` and every `int32_t` sum or difference that
`compress_to_int8` computes for the elements `data` is representable. -/
def Representable (data : List ℚ) : Prop :=
  params_ok data ∧ ∀ x ∈ data, elem_ok data x

/-- The part of `init_buffer` after its loop (`// Mod'a gore allocation yap`), as
a function of the heap the loop leaves. -/
def init_buffer_data (h7 : Heap) (mb : Option Nat) (mode : BufferMode) :
    Option (Heap × Option Nat) :=
  match mode with
  | BufferMode.MODE_FLOAT32 => do
    let (h8, f) := h7.calloc (← h7.deref mb).total_size
      fun n => Block.float_array (List.replicate n 0)
    let h9 ← h8.assign mb fun x => { x with mem := ⟨f⟩ }
    let h10 ← h9.assign mb fun x => { x with scale_factor := 0 }
    let h11 ← h10.assign mb fun x => { x with zero_pt := 0 }
    if (← h11.deref mb).mem.ptr_f = none then some (h11, none) else some (h11, mb)
  | BufferMode.MODE_INT8 => do
    let (h8, f) := h7.calloc (← h7.deref mb).total_size
      fun n => Block.int8_array (List.replicate n 0)
    let h9 ← h8.assign mb fun x => { x with mem := ⟨f⟩ }
    if (← h9.deref mb).mem.ptr_i = none then some (h9, none) else some (h9, mb)

/-- The zero-filled data block of `n` elements of the given mode. -/
def zero_block (mode : BufferMode) (n : Nat) : Block :=
  match mode with
  | BufferMode.MODE_FLOAT32 => Block.float_array (List.replicate n 0)
  | BufferMode.MODE_INT8 => Block.int8_array (List.replicate n 0)

/-- The struct `init_buffer` leaves, from the struct after its loop and the data
pointer `m`: Float32 mode also clears `scale_factor` and `zero_pt`. -/
def init_header (mode : BufferMode) (hdr : MicroBuffer) (m : Option Nat) : MicroBuffer :=
  match mode with
  | BufferMode.MODE_FLOAT32 => ⟨hdr.dims, hdr.dim_count, hdr.total_size, hdr.mode, ⟨m⟩, 0, 0⟩
  | BufferMode.MODE_INT8 =>
    ⟨hdr.dims, hdr.dim_count, hdr.total_size, hdr.mode, ⟨m⟩, hdr.scale_factor, hdr.zero_pt⟩

/-- The heap during the second loop of `compress_to_int8`: the old blocks `bs`,
the new struct `hq`, the blocks `mid` allocated for its dimensions and the
output elements `out`. -/
def quant_state (bs mid : List Block) (g : List Bool) (fr hq : MicroBuffer)
    (out : List Int) : Heap :=
  ⟨bs ++ Block.header hq :: (mid ++ [Block.int8_array out]), g, fr⟩

/-- The output elements after `i` iterations of the second loop. -/
def quant_outputs (data : List ℚ) (i : Nat) : List Int :=
  (data.take i).map (quantized data) ++ List.replicate (data.length - i) 0

/-- Heap `s` still holds the blocks `bs`, unchanged, at their addresses. -/
def Keeps (bs : List Block) (s : Heap) : Prop := ∃ post, s.blocks = bs ++ post

/-- Heap `s` keeps `bs` and the struct allocated right after `bs` has the
dimension pointer `d`. -/
def HeaderDims (bs : List Block) (d : Option Nat) (s : Heap) : Prop :=
  Keeps bs s ∧ ∃ mb, s.deref (some bs.length) = some mb ∧ mb.dims = d

/-- Heap `s` keeps `bs` and the struct allocated right after `bs` has the data
pointer `f`. -/
def HeaderMem (bs : List Block) (f : Option Nat) (s : Heap) : Prop :=
  Keeps bs s ∧ ∃ mb, s.deref (some bs.length) = some mb ∧ mb.mem.ptr = f


/-! ## Concrete heaps used to run the functions -/

/-- A heap with one Float32 tensor of shape `[2]` with the elements `-0.5` and
`254.5`, and an allocator that grants the next three requests. -/
def example_heap : Heap :=
  ⟨[Block.header ⟨some 1, 1, 2, BufferMode.MODE_FLOAT32, ⟨some 2⟩, 0, 0⟩, Block.int_array [2],
    Block.float_array [-1 / 2, 509 / 2]], [true, true, true],
    ⟨none, 0, 0, BufferMode.MODE_INT8, ⟨none⟩, 0, 0⟩⟩

/-- The heap after `compress_to_int8` on the tensor of `example_heap`: the
quantized tensor is at address 3, with scale `1`, zero point `-127` and the
elements `-128` and `127` (the second one saturated from `raw_q = 128`). -/
def example_result : Heap :=
  ⟨[Block.header ⟨some 1, 1, 2, BufferMode.MODE_FLOAT32, ⟨some 2⟩, 0, 0⟩, Block.int_array [2],
    Block.float_array [-1 / 2, 509 / 2],
    Block.header ⟨some 4, 1, 2, BufferMode.MODE_INT8, ⟨some 5⟩, 1, -127⟩, Block.int_array [2],
    Block.int8_array [-128, 127]], [],
    ⟨none, 0, 0, BufferMode.MODE_INT8, ⟨none⟩, 0, 0⟩⟩

/-- The heap of `main` before its call `init_buffer(matrix_shape, 2, MODE_FLOAT32)`:
the array `matrix_shape = {5, 5}` and an allocator that grants three requests. -/
def main_heap : Heap :=
  ⟨[Block.int_array [5, 5]], [true, true, true], ⟨none, 0, 0, BufferMode.MODE_INT8, ⟨none⟩, 0, 0⟩⟩

/-- The heap of `main` after that call: `float_buf` is at address 1. -/
def main_result : Heap :=
  ⟨[Block.int_array [5, 5],
    Block.header ⟨some 2, 2, 25, BufferMode.MODE_FLOAT32, ⟨some 3⟩, 0, 0⟩,
    Block.int_array [5, 5], Block.float_array (List.replicate 25 0)], [],
    ⟨none, 0, 0, BufferMode.MODE_INT8, ⟨none⟩, 0, 0⟩⟩

/-- A heap with the same Float32 tensor as `example_heap`, laid out differently
and with other values in its own `scale_factor` and `zero_pt`. -/
def second_heap : Heap :=
  ⟨[Block.int_array [2], Block.float_array [-1 / 2, 509 / 2],
    Block.header ⟨some 0, 1, 2, BufferMode.MODE_FLOAT32, ⟨some 1⟩, 7, 9⟩], [true, true, true],
    ⟨none, 5, 5, BufferMode.MODE_FLOAT32, ⟨none⟩, 3, 4⟩⟩

/-- The heap after `compress_to_int8` on the tensor of `second_heap`. -/
def second_result : Heap :=
  ⟨[Block.int_array [2], Block.float_array [-1 / 2, 509 / 2],
    Block.header ⟨some 0, 1, 2, BufferMode.MODE_FLOAT32, ⟨some 1⟩, 7, 9⟩,
    Block.header ⟨some 4, 1, 2, BufferMode.MODE_INT8, ⟨some 5⟩, 1, -127⟩, Block.int_array [2],
    Block.int8_array [-128, 127]], [],
    ⟨none, 5, 5, BufferMode.MODE_FLOAT32, ⟨none⟩, 3, 4⟩⟩

/-- The heap of a caller about to run `init_buffer` on the shape
`{40000, 40000}` with an allocator that grants the struct and the dimension
array and refuses the 1600000000 elements of data. -/
def refusing_heap : Heap :=
  ⟨[Block.int_array [40000, 40000]], [true, true, false],
    ⟨none, 0, 0, BufferMode.MODE_INT8, ⟨none⟩, 0, 0⟩⟩

/-- The heap after that call. -/
def refusing_result : Heap :=
  ⟨[Block.int_array [40000, 40000],
    Block.header ⟨some 2, 2, 1600000000, BufferMode.MODE_FLOAT32, ⟨none⟩, 0, 0⟩,
    Block.int_array [40000, 40000]], [],
    ⟨none, 0, 0, BufferMode.MODE_INT8, ⟨none⟩, 0, 0⟩⟩

/-! ## Lemmas -/

/-! ### Loops that run to their bound, and the scan -/

theorem for_loop_states {σ : Type} (cond : σ → Nat → Option Bool) (body : σ → Nat → Option σ)
    (st : Nat → σ) (n : Nat)
    (hc : ∀ i, i < n → cond (st i) i = some true)
    (hb : ∀ i, i < n → body (st i) i = some (st (i + 1)))
    (he : cond (st n) n = some false) :
    ∀ (fuel i : Nat), i ≤ n → n - i < fuel → for_loop cond body fuel i (st i) = some (st n) := by
  intro fuel
  induction fuel with
  | zero => intro i _ h; omega
  | succ k ih =>
    intro i hi hk
    rcases Nat.lt_or_ge i n with hlt | hge
    · rw [for_loop, hc i hlt]
      simp only [hb i hlt]
      exact ih (i + 1) hlt (by omega)
    · have : i = n := le_antisymm hi hge
      subst this
      rw [for_loop, he]

theorem scan_take_succ (data : List ℚ) (i : Nat) (hi : i < data.length) :
    scan (data.take (i + 1)) = scan_step (scan (data.take i)) (data.get ⟨i, hi⟩) := by
  unfold scan
  rw [List.take_succ, List.foldl_append]
  simp [List.getElem?_eq_getElem hi]

theorem find_min_max_eq {h : Heap} {source : Option Nat} {mb : MicroBuffer} {data : List ℚ}
    (hd : h.deref source = some mb)
    (hf : h.read mb.mem.ptr_f = some (Block.float_array data))
    (hn : mb.total_size = data.length) :
    find_min_max h source = some (scan data) := by
  unfold find_min_max
  simp only [hd, Option.bind_eq_bind, Option.some_bind, hn, Int.toNat_ofNat]
  have key := for_loop_states (fun _ i => below_total_size h source i) (scan_body h source)
    (fun i => scan (data.take i)) data.length ?_ ?_ ?_ (data.length + 1) 0 (Nat.zero_le _)
    (by omega)
  · simpa [scan] using key
  · intro i hi
    simp [below_total_size, hd, hn, hi]
  · intro i hi
    simp only [scan_body, hd, Option.bind_eq_bind, Option.some_bind, Heap.float_at, hf,
      List.getElem?_eq_getElem hi]
    rw [scan_take_succ data i hi]
    rfl
  · simp [below_total_size, hd, hn]

/-! ### Reading and writing the blocks of a heap -/

theorem getElem?_at_length {α : Type} (l1 : List α) (b : α) (l2 : List α) :
    (l1 ++ b :: l2)[l1.length]? = some b := by
  rw [List.getElem?_append_right (le_refl _)]
  simp

theorem set_at_length {α : Type} (l1 : List α) (b c : α) (l2 : List α) :
    (l1 ++ b :: l2).set l1.length c = l1 ++ c :: l2 := by
  rw [List.set_append_right _ _ (le_refl _)]
  simp

theorem data_split (pre mid post : List Block) (x b : Block) :
    pre ++ x :: (mid ++ b :: post) = (pre ++ x :: mid) ++ b :: post := by
  simp

theorem data_length (pre mid : List Block) (x : Block) :
    pre.length + 1 + mid.length = (pre ++ x :: mid).length := by
  simp
  omega

section heap_lemmas
variable (pre mid post : List Block) (g : List Bool) (fr : MicroBuffer)

theorem read_old {pre : List Block} {a : Nat} {b : Block} (post : List Block) (g : List Bool)
    (fr : MicroBuffer) (hb : pre[a]? = some b) :
    Heap.read ⟨pre ++ post, g, fr⟩ (some a) = some b := by
  have hlt : a < pre.length := by
    by_contra hc
    rw [List.getElem?_eq_none (by omega)] at hb
    cases hb
  simp only [Heap.read]
  rw [List.getElem?_append_left hlt, hb]

theorem read_header (mb : MicroBuffer) :
    Heap.read ⟨pre ++ Block.header mb :: post, g, fr⟩ (some pre.length) =
      some (Block.header mb) := by
  simp only [Heap.read, getElem?_at_length]

theorem deref_header (mb : MicroBuffer) :
    Heap.deref ⟨pre ++ Block.header mb :: post, g, fr⟩ (some pre.length) = some mb := by
  simp only [Heap.deref, read_header]

theorem assign_header (mb : MicroBuffer) (f : MicroBuffer → MicroBuffer) :
    Heap.assign ⟨pre ++ Block.header mb :: post, g, fr⟩ (some pre.length) f =
      some ⟨pre ++ Block.header (f mb) :: post, g, fr⟩ := by
  simp only [Heap.assign, read_header, Heap.store, set_at_length]

theorem read_data (x b : Block) :
    Heap.read ⟨pre ++ x :: (mid ++ b :: post), g, fr⟩ (some (pre.length + 1 + mid.length)) =
      some b := by
  simp only [Heap.read]
  rw [data_split, data_length pre mid x, getElem?_at_length]

theorem store_data (x b c : Block) :
    Heap.store ⟨pre ++ x :: (mid ++ b :: post), g, fr⟩ (pre.length + 1 + mid.length) c =
      ⟨pre ++ x :: (mid ++ c :: post), g, fr⟩ := by
  simp only [Heap.store]
  rw [data_split, data_length pre mid x, set_at_length, ← data_split]

theorem set_int_data (x : Block) (xs : List Int) (i : Nat) (v : Int) (hi : i < xs.length) :
    Heap.set_int ⟨pre ++ x :: (mid ++ Block.int_array xs :: post), g, fr⟩
        (some (pre.length + 1 + mid.length)) i v =
      some ⟨pre ++ x :: (mid ++ Block.int_array (xs.set i v) :: post), g, fr⟩ := by
  simp only [Heap.set_int, read_data, hi, if_true, store_data]

theorem set_int8_data (x : Block) (xs : List Int) (i : Nat) (v : Int) (hi : i < xs.length) :
    Heap.set_int8 ⟨pre ++ x :: (mid ++ Block.int8_array xs :: post), g, fr⟩
        (some (pre.length + 1 + mid.length)) i v =
      some ⟨pre ++ x :: (mid ++ Block.int8_array (xs.set i v) :: post), g, fr⟩ := by
  simp only [Heap.set_int8, read_data, hi, if_true, store_data]

end heap_lemmas

theorem int32_eq_some {x : Int} (h1 : INT_MIN ≤ x) (h2 : x ≤ INT_MAX) : int32 x = some x := by
  simp [int32, h1, h2]

/-! ### The loop of `init_buffer` -/

theorem prod_pos_of_pos (l : List Int) (hl : ∀ d ∈ l, 0 < d) : 0 < l.prod := by
  induction l with
  | nil => simp
  | cons a t ih =>
    rw [List.prod_cons]
    exact mul_pos (hl a (List.mem_cons_self _ _)) (ih fun d hd => hl d (List.mem_cons_of_mem _ hd))

theorem prod_take_le (l : List Int) (hl : ∀ d ∈ l, 0 < d) (i : Nat) :
    0 < (l.take i).prod ∧ (l.take i).prod ≤ l.prod := by
  have h1 : 0 < (l.take i).prod := prod_pos_of_pos _ fun d hd => hl d (List.mem_of_mem_take hd)
  have h2 : 0 < (l.drop i).prod := prod_pos_of_pos _ fun d hd => hl d (List.mem_of_mem_drop hd)
  refine ⟨h1, ?_⟩
  have h3 : l.prod = (l.take i).prod * (l.drop i).prod := by
    rw [← List.prod_append, List.take_append_drop]
  rw [h3]
  nlinarith

theorem prod_take_succ (l : List Int) (i : Nat) (hi : i < l.length) :
    (l.take (i + 1)).prod = (l.take i).prod * l.get ⟨i, hi⟩ := by
  rw [List.take_succ, List.prod_append]
  simp [List.getElem?_eq_getElem hi]

theorem set_take_replicate {α : Type} (l : List α) (z : α) (i : Nat) (hi : i < l.length) :
    (l.take i ++ List.replicate (l.length - i) z).set i (l.get ⟨i, hi⟩) =
      l.take (i + 1) ++ List.replicate (l.length - (i + 1)) z := by
  have hlen : (l.take i).length = i := by simp; omega
  have hrep : List.replicate (l.length - i) z = z :: List.replicate (l.length - (i + 1)) z := by
    have : l.length - i = (l.length - (i + 1)) + 1 := by omega
    rw [this, List.replicate_succ]
  rw [hrep]
  have := set_at_length (l.take i) z (l.get ⟨i, hi⟩) (List.replicate (l.length - (i + 1)) z)
  rw [hlen] at this
  rw [this, List.take_succ, List.getElem?_eq_getElem hi]
  simp only [List.get_eq_getElem, Option.toList_some, List.append_assoc, List.singleton_append]

theorem set_map_take_replicate {α β : Type} (l : List α) (f : α → β) (z : β) (i : Nat)
    (hi : i < l.length) :
    ((l.take i).map f ++ List.replicate (l.length - i) z).set i (f (l.get ⟨i, hi⟩)) =
      (l.take (i + 1)).map f ++ List.replicate (l.length - (i + 1)) z := by
  have := set_take_replicate (l.map f) z i (by simpa using hi)
  simpa [List.map_take] using this

theorem int_at_old {pre : List Block} {a : Nat} {xs : List Int} (post : List Block)
    (g : List Bool) (fr : MicroBuffer) (hb : pre[a]? = some (Block.int_array xs)) (i : Nat) :
    Heap.int_at ⟨pre ++ post, g, fr⟩ (some a) i = xs[i]? := by
  simp only [Heap.int_at, read_old post g fr hb]

theorem float_at_old {pre : List Block} {a : Nat} {xs : List ℚ} (post : List Block)
    (g : List Bool) (fr : MicroBuffer) (hb : pre[a]? = some (Block.float_array xs)) (i : Nat) :
    Heap.float_at ⟨pre ++ post, g, fr⟩ (some a) i = xs[i]? := by
  simp only [Heap.float_at, read_old post g fr hb]

theorem deref_old {pre : List Block} {a : Nat} {mb : MicroBuffer} (post : List Block)
    (g : List Bool) (fr : MicroBuffer) (hb : pre[a]? = some (Block.header mb)) :
    Heap.deref ⟨pre ++ post, g, fr⟩ (some a) = some mb := by
  simp only [Heap.deref, read_old post g fr hb]

theorem set_int_dims (pre post : List Block) (g : List Bool) (fr : MicroBuffer) (x : Block)
    (xs : List Int) (i : Nat) (v : Int) (hi : i < xs.length) :
    Heap.set_int ⟨pre ++ x :: Block.int_array xs :: post, g, fr⟩ (some (pre.length + 1)) i v =
      some ⟨pre ++ x :: Block.int_array (xs.set i v) :: post, g, fr⟩ := by
  simpa using set_int_data pre [] post g fr x xs i v hi

theorem init_loop_eq (bs post : List Block) (a : Nat) (shape : List Int) (g : List Bool)
    (fr mb0 : MicroBuffer) (hdim : bs[a]? = some (Block.int_array shape))
    (hpos : ∀ d ∈ shape, 0 < d) (hmax : shape.prod ≤ INT_MAX)
    (hd : mb0.dims = some (bs.length + 1)) :
    for_loop (fun _ i => some (decide ((i : Int) < (shape.length : Int))))
        (init_buffer_body (some a) (some bs.length)) (shape.length + 1) 0
        ⟨bs ++ Block.header { mb0 with total_size := 1 } ::
          Block.int_array (List.replicate shape.length 0) :: post, g, fr⟩ =
      some ⟨bs ++ Block.header { mb0 with total_size := shape.prod } ::
          Block.int_array shape :: post, g, fr⟩ := by
  have key := for_loop_states (fun _ i => some (decide ((i : Int) < (shape.length : Int))))
    (init_buffer_body (some a) (some bs.length))
    (fun i => (⟨bs ++ Block.header { mb0 with total_size := (shape.take i).prod } ::
          Block.int_array (shape.take i ++ List.replicate (shape.length - i) 0) :: post,
          g, fr⟩ : Heap)) shape.length ?_ ?_ ?_ (shape.length + 1) 0 (Nat.zero_le _) (by omega)
  · simpa using key
  · intro i hi
    simp [hi]
  · intro i hi
    have hv : shape[i]? = some (shape.get ⟨i, hi⟩) := List.getElem?_eq_getElem hi
    have hlen : i < (shape.take i ++ List.replicate (shape.length - i) (0 : Int)).length := by
      simp
      omega
    have hb := prod_take_le shape hpos (i + 1)
    rw [prod_take_succ shape i hi] at hb
    have hr : int32 ((shape.take i).prod * shape.get ⟨i, hi⟩) =
        some ((shape.take i).prod * shape.get ⟨i, hi⟩) :=
      int32_eq_some (by unfold INT_MIN; omega) (by omega)
    simp only [init_buffer_body, int_at_old _ g fr hdim, hv, Option.bind_eq_bind,
      Option.some_bind, deref_header, hd, set_int_dims _ _ _ _ _ _ _ _ hlen,
      set_take_replicate shape 0 i hi, hr, assign_header, prod_take_succ shape i hi]
  · simp

/-! ### `init_buffer`, by the answers of the allocator -/

theorem init_buffer_head (bs : List Block) (a : Nat) (shape : List Int) (r : List Bool)
    (fr : MicroBuffer) (mode : BufferMode) (hdim : bs[a]? = some (Block.int_array shape))
    (hpos : ∀ d ∈ shape, 0 < d) (hmax : shape.prod ≤ INT_MAX) :
    init_buffer ⟨bs, true :: true :: r, fr⟩ (some a) shape.length mode =
      init_buffer_data ⟨bs ++ [Block.header ⟨some (bs.length + 1), shape.length, shape.prod, mode,
        fr.mem, fr.scale_factor, fr.zero_pt⟩, Block.int_array shape], r, fr⟩
        (some bs.length) mode := by
  have hl := init_loop_eq bs [] a shape r fr
    ⟨some (bs.length + 1), shape.length, 0, mode, fr.mem, fr.scale_factor, fr.zero_pt⟩
    hdim hpos hmax rfl
  simp only [] at hl
  unfold init_buffer init_buffer_data
  simp only [Heap.malloc_struct, Heap.alloc, Heap.calloc, assign_header, Option.bind_eq_bind,
    Option.some_bind, Int.toNat_ofNat, List.append_assoc, List.singleton_append,
    List.length_append, List.length_singleton, List.length_cons, List.length_nil,
    not_lt.mpr (Int.natCast_nonneg _), if_false, hl]

theorem init_buffer_data_ok (bs mid : List Block) (g : List Bool) (fr hdr : MicroBuffer)
    (mode : BufferMode) (ht : 0 ≤ hdr.total_size) :
    init_buffer_data ⟨bs ++ Block.header hdr :: mid, true :: g, fr⟩ (some bs.length) mode =
      some (⟨bs ++ Block.header (init_header mode hdr (some (bs.length + 1 + mid.length))) ::
        (mid ++ [zero_block mode hdr.total_size.toNat]), g, fr⟩, some bs.length) := by
  have hlen : bs.length + (mid.length + 1) = bs.length + 1 + mid.length := by omega
  cases mode <;>
    simp [init_buffer_data, deref_header, Heap.calloc, not_lt.mpr ht, Heap.alloc, assign_header,
      MemoryUnion.ptr_f, MemoryUnion.ptr_i, init_header, zero_block, hlen]

theorem init_buffer_data_fail (bs mid : List Block) (r : List Bool) (fr hdr : MicroBuffer)
    (mode : BufferMode) (hr : r = [] ∨ ∃ g, r = false :: g) (h1 : Heap) (q : Nat) :
    init_buffer_data ⟨bs ++ Block.header hdr :: mid, r, fr⟩ (some bs.length) mode ≠
      some (h1, some q) := by
  rcases hr with rfl | ⟨g, rfl⟩ <;> cases mode <;>
    by_cases ht : hdr.total_size < 0 <;>
    simp [init_buffer_data, deref_header, Heap.calloc, ht, Heap.alloc, assign_header,
      MemoryUnion.ptr_f, MemoryUnion.ptr_i]

theorem init_buffer_no_struct (bs : List Block) (r : List Bool) (fr : MicroBuffer)
    (dimensions : Option Nat) (rank : Int) (mode : BufferMode)
    (hr : r = [] ∨ ∃ g, r = false :: g) (h1 : Heap) (q : Nat) :
    init_buffer ⟨bs, r, fr⟩ dimensions rank mode ≠ some (h1, some q) := by
  rcases hr with rfl | ⟨g, rfl⟩ <;> simp [init_buffer, Heap.malloc_struct, Heap.alloc]

theorem init_loop_null (bs post : List Block) (a : Nat) (shape : List Int) (g : List Bool)
    (fr mb0 : MicroBuffer) (hdim : bs[a]? = some (Block.int_array shape))
    (hne : shape ≠ []) (hd : mb0.dims = none) :
    for_loop (fun _ i => some (decide ((i : Int) < (shape.length : Int))))
        (init_buffer_body (some a) (some bs.length)) (shape.length + 1) 0
        ⟨bs ++ Block.header mb0 :: post, g, fr⟩ = none := by
  have hpos : 0 < shape.length := List.length_pos.mpr hne
  have h0 : shape[0]? = some (shape.get ⟨0, hpos⟩) := List.getElem?_eq_getElem hpos
  rw [for_loop]
  simp only [Nat.cast_zero, Nat.cast_pos, hpos, decide_True, init_buffer_body,
    int_at_old _ g fr hdim, h0, Option.bind_eq_bind, Option.some_bind, deref_header, hd,
    Heap.set_int, Option.none_bind]

theorem init_buffer_null_dims (bs : List Block) (a : Nat) (shape : List Int) (r : List Bool)
    (fr : MicroBuffer) (mode : BufferMode) (hdim : bs[a]? = some (Block.int_array shape))
    (hne : shape ≠ []) (hr : r = [] ∨ ∃ g, r = false :: g) :
    init_buffer ⟨bs, true :: r, fr⟩ (some a) shape.length mode = none := by
  rcases hr with rfl | ⟨g, rfl⟩
  · have hl := init_loop_null bs [] a shape [] fr
      ⟨none, shape.length, 1, mode, fr.mem, fr.scale_factor, fr.zero_pt⟩ hdim hne rfl
    unfold init_buffer
    simp only [Heap.malloc_struct, Heap.alloc, Heap.calloc, assign_header, Option.bind_eq_bind,
      Option.some_bind, Int.toNat_ofNat, not_lt.mpr (Int.natCast_nonneg _), if_false, hl,
      Option.none_bind]
  · have hl := init_loop_null bs [] a shape g fr
      ⟨none, shape.length, 1, mode, fr.mem, fr.scale_factor, fr.zero_pt⟩ hdim hne rfl
    unfold init_buffer
    simp only [Heap.malloc_struct, Heap.alloc, Heap.calloc, assign_header, Option.bind_eq_bind,
      Option.some_bind, Int.toNat_ofNat, not_lt.mpr (Int.natCast_nonneg _), if_false, hl,
      Option.none_bind]

theorem init_buffer_rank_zero (bs : List Block) (r : List Bool) (fr : MicroBuffer)
    (dimensions : Option Nat) (mode : BufferMode) :
    ∃ d mid r2, init_buffer ⟨bs, true :: r, fr⟩ dimensions 0 mode =
      init_buffer_data ⟨bs ++ Block.header ⟨d, 0, 1, mode, fr.mem, fr.scale_factor, fr.zero_pt⟩ ::
        mid, r2, fr⟩ (some bs.length) mode := by
  rcases r with _ | ⟨b, g⟩
  · refine ⟨none, [], [], ?_⟩
    simp [init_buffer, init_buffer_data, Heap.malloc_struct, Heap.alloc, Heap.calloc,
      assign_header, for_loop]
  · cases b
    · refine ⟨none, [], g, ?_⟩
      simp [init_buffer, init_buffer_data, Heap.malloc_struct, Heap.alloc, Heap.calloc,
        assign_header, for_loop]
    · refine ⟨some (bs.length + 1), [Block.int_array []], g, ?_⟩
      simp [init_buffer, init_buffer_data, Heap.malloc_struct, Heap.alloc, Heap.calloc,
        assign_header, for_loop]

theorem grants_cases (r : List Bool) : (r = [] ∨ ∃ g, r = false :: g) ∨ ∃ g, r = true :: g := by
  rcases r with _ | ⟨b, g⟩
  · exact Or.inl (Or.inl rfl)
  · cases b
    · exact Or.inl (Or.inr ⟨g, rfl⟩)
    · exact Or.inr ⟨g, rfl⟩

theorem init_buffer_data_returns (bs mid : List Block) (r : List Bool) (fr hdr : MicroBuffer)
    (mode : BufferMode) (ht : 0 ≤ hdr.total_size) (h1 : Heap) (q : Nat)
    (hres : init_buffer_data ⟨bs ++ Block.header hdr :: mid, r, fr⟩ (some bs.length) mode =
      some (h1, some q)) :
    ∃ g, r = true :: g ∧ q = bs.length ∧
      h1 = ⟨bs ++ Block.header (init_header mode hdr (some (bs.length + 1 + mid.length))) ::
        (mid ++ [zero_block mode hdr.total_size.toNat]), g, fr⟩ := by
  rcases grants_cases r with hr | ⟨g, rfl⟩
  · exact absurd hres (init_buffer_data_fail bs mid r fr hdr mode hr h1 q)
  · rw [init_buffer_data_ok bs mid g fr hdr mode ht] at hres
    simp only [Option.some.injEq, Prod.mk.injEq] at hres
    exact ⟨g, rfl, hres.2.symm, hres.1.symm⟩

theorem init_buffer_returns (bs : List Block) (gr : List Bool) (fr : MicroBuffer)
    (dimensions : Option Nat) (shape : List Int) (mode : BufferMode)
    (hdims : shape = [] ∨ ∃ a, dimensions = some a ∧ bs[a]? = some (Block.int_array shape))
    (hpos : ∀ d ∈ shape, 0 < d) (hmax : shape.prod ≤ INT_MAX) (h1 : Heap) (q : Nat)
    (hres : init_buffer ⟨bs, gr, fr⟩ dimensions shape.length mode = some (h1, some q)) :
    ∃ d mid g, q = bs.length ∧
      h1 = ⟨bs ++ Block.header (init_header mode
          ⟨d, shape.length, shape.prod, mode, fr.mem, fr.scale_factor, fr.zero_pt⟩
          (some (bs.length + 1 + mid.length))) ::
        (mid ++ [zero_block mode shape.prod.toNat]), g, fr⟩ ∧
      (shape = [] ∨ (d = some (bs.length + 1) ∧ mid = [Block.int_array shape])) := by
  have hprod : 0 ≤ shape.prod := le_of_lt (prod_pos_of_pos shape hpos)
  rcases grants_cases gr with hr | ⟨r, rfl⟩
  · exact absurd hres (init_buffer_no_struct bs gr fr dimensions _ mode hr h1 q)
  · by_cases hs : shape = []
    · subst hs
      obtain ⟨d, mid, r2, he⟩ := init_buffer_rank_zero bs r fr dimensions mode
      simp only [List.length_nil, Nat.cast_zero] at hres
      rw [he] at hres
      obtain ⟨g, -, hq, hh⟩ := init_buffer_data_returns bs mid r2 fr _ mode (by simp) h1 q hres
      exact ⟨d, mid, g, hq, by simpa using hh, Or.inl rfl⟩
    · rcases hdims with hs' | ⟨a, rfl, hdim⟩
      · exact absurd hs' hs
      · rcases grants_cases r with hr | ⟨r2, rfl⟩
        · rw [init_buffer_null_dims bs a shape r fr mode hdim hs hr] at hres
          cases hres
        · rw [init_buffer_head bs a shape r2 fr mode hdim hpos hmax] at hres
          obtain ⟨g, -, hq, hh⟩ := init_buffer_data_returns bs [Block.int_array shape] r2 fr _
            mode hprod h1 q hres
          exact ⟨some (bs.length + 1), [Block.int_array shape], g, hq, hh, Or.inr ⟨rfl, rfl⟩⟩

theorem init_buffer_granted (bs : List Block) (a : Nat) (shape : List Int) (g : List Bool)
    (fr : MicroBuffer) (mode : BufferMode) (hdim : bs[a]? = some (Block.int_array shape))
    (hpos : ∀ d ∈ shape, 0 < d) (hmax : shape.prod ≤ INT_MAX) :
    init_buffer ⟨bs, true :: true :: true :: g, fr⟩ (some a) shape.length mode =
      some (⟨bs ++ [Block.header (init_header mode
          ⟨some (bs.length + 1), shape.length, shape.prod, mode, fr.mem, fr.scale_factor,
            fr.zero_pt⟩ (some (bs.length + 2))),
        Block.int_array shape, zero_block mode shape.prod.toNat], g, fr⟩, some bs.length) := by
  rw [init_buffer_head bs a shape (true :: g) fr mode hdim hpos hmax]
  have := init_buffer_data_ok bs [Block.int_array shape] g fr
    ⟨some (bs.length + 1), shape.length, shape.prod, mode, fr.mem, fr.scale_factor, fr.zero_pt⟩
    mode (le_of_lt (prod_pos_of_pos shape hpos))
  simpa using this

/-! ### The second loop of `compress_to_int8` -/

theorem int32_eq_none {x : Int} (h : ¬ in_int32 x) : int32 x = none := by
  unfold in_int32 at h
  simp [int32, h]

theorem int32_of_in {x : Int} (h : in_int32 x) : int32 x = some x := int32_eq_some h.1 h.2

theorem for_loop_stuck {σ : Type} (cond : σ → Nat → Option Bool) (body : σ → Nat → Option σ)
    (st : Nat → σ) (k : Nat)
    (hc : ∀ i, i ≤ k → cond (st i) i = some true)
    (hb : ∀ i, i < k → body (st i) i = some (st (i + 1)))
    (hf : body (st k) k = none) :
    ∀ (fuel i : Nat), i ≤ k → for_loop cond body fuel i (st i) = none := by
  intro fuel
  induction fuel with
  | zero => intro i _; rfl
  | succ f ih =>
    intro i hi
    rcases Nat.lt_or_ge i k with hlt | hge
    · rw [for_loop, hc i hi]
      simp only [hb i hlt]
      exact ih (i + 1) hlt
    · have : i = k := le_antisymm hi hge
      subst this
      rw [for_loop, hc i hi]
      simp only [hf]

theorem deref_eq_some {bs : List Block} {gr : List Bool} {fr : MicroBuffer} {p : Option Nat}
    {mb : MicroBuffer} (h : Heap.deref ⟨bs, gr, fr⟩ p = some mb) :
    ∃ a, p = some a ∧ bs[a]? = some (Block.header mb) := by
  cases p with
  | none => simp [Heap.deref, Heap.read] at h
  | some a =>
    refine ⟨a, rfl, ?_⟩
    simp only [Heap.deref, Heap.read] at h
    split at h
    · next mb2 heq => cases h; exact heq
    · cases h

theorem read_eq_some {bs : List Block} {gr : List Bool} {fr : MicroBuffer} {p : Option Nat}
    {b : Block} (h : Heap.read ⟨bs, gr, fr⟩ p = some b) :
    ∃ a, p = some a ∧ bs[a]? = some b := by
  cases p with
  | none => simp [Heap.read] at h
  | some a => exact ⟨a, rfl, h⟩

section quantize
variable (bs mid : List Block) (g : List Bool) (fr hq mb : MicroBuffer) (a fa : Nat)
  (data : List ℚ)

theorem quantize_cond (ha : bs[a]? = some (Block.header mb)) (hn : mb.total_size = data.length)
    (out : List Int) (i : Nat) :
    below_total_size (quant_state bs mid g fr hq out) (some a) i =
      some (decide (i < data.length)) := by
  simp [below_total_size, quant_state, deref_old _ g fr ha, hn]

theorem quantize_body_ok (ha : bs[a]? = some (Block.header mb))
    (hfa : bs[fa]? = some (Block.float_array data)) (hp : mb.mem.ptr = some fa)
    (hs : hq.scale_factor = scale_of data) (hz : hq.zero_pt = zero_point_of data)
    (hm : hq.mem.ptr = some (bs.length + 1 + mid.length)) (hne : scale_of data ≠ 0)
    (out : List Int) (i : Nat) (hi : i < data.length) (ho : i < out.length)
    (hok : elem_ok data (data.get ⟨i, hi⟩)) :
    quantize_body (some a) (some bs.length) (quant_state bs mid g fr hq out) i =
      some (quant_state bs mid g fr hq (out.set i (quantized data (data.get ⟨i, hi⟩)))) := by
  have hv : data[i]? = some (data.get ⟨i, hi⟩) := List.getElem?_eq_getElem hi
  have h1 := int32_of_in hok.1
  have h2 := int32_of_in hok.2
  unfold raw_of at h2
  simp only [quantize_body, quant_state, deref_old _ g fr ha, MemoryUnion.ptr_f,
    MemoryUnion.ptr_i, hp, float_at_old _ g fr hfa, hv, Option.bind_eq_bind, Option.some_bind,
    deref_header, hs, fdiv, hne, if_false, h1, hz, h2, hm, set_int8_data _ _ _ _ _ _ _ _ _ ho,
    quantized, raw_of]

theorem quantize_body_undefined (ha : bs[a]? = some (Block.header mb))
    (hfa : bs[fa]? = some (Block.float_array data)) (hp : mb.mem.ptr = some fa)
    (hs : hq.scale_factor = scale_of data) (hz : hq.zero_pt = zero_point_of data)
    (hne : scale_of data ≠ 0)
    (out : List Int) (i : Nat) (hi : i < data.length)
    (hok : ¬ elem_ok data (data.get ⟨i, hi⟩)) :
    quantize_body (some a) (some bs.length) (quant_state bs mid g fr hq out) i = none := by
  have hv : data[i]? = some (data.get ⟨i, hi⟩) := List.getElem?_eq_getElem hi
  by_cases h1 : in_int32 (c_round (data.get ⟨i, hi⟩ / scale_of data))
  · have h2 : ¬ in_int32 (raw_of data (data.get ⟨i, hi⟩)) := fun h => hok ⟨h1, h⟩
    have h2' := int32_eq_none h2
    unfold raw_of at h2'
    simp only [quantize_body, quant_state, deref_old _ g fr ha, MemoryUnion.ptr_f,
      hp, float_at_old _ g fr hfa, hv, Option.bind_eq_bind, Option.some_bind,
      deref_header, hs, fdiv, hne, if_false, int32_of_in h1, hz, h2', Option.none_bind]
  · simp only [quantize_body, quant_state, deref_old _ g fr ha, MemoryUnion.ptr_f,
      hp, float_at_old _ g fr hfa, hv, Option.bind_eq_bind, Option.some_bind,
      deref_header, hs, fdiv, hne, if_false, int32_eq_none h1, Option.none_bind]

theorem quant_outputs_length (i : Nat) (hi : i ≤ data.length) :
    (quant_outputs data i).length = data.length := by
  simp [quant_outputs]
  omega

theorem quantize_step (ha : bs[a]? = some (Block.header mb))
    (hfa : bs[fa]? = some (Block.float_array data)) (hp : mb.mem.ptr = some fa)
    (hs : hq.scale_factor = scale_of data) (hz : hq.zero_pt = zero_point_of data)
    (hm : hq.mem.ptr = some (bs.length + 1 + mid.length)) (hne : scale_of data ≠ 0)
    (i : Nat) (hi : i < data.length) (hok : elem_ok data (data.get ⟨i, hi⟩)) :
    quantize_body (some a) (some bs.length) (quant_state bs mid g fr hq (quant_outputs data i)) i =
      some (quant_state bs mid g fr hq (quant_outputs data (i + 1))) := by
  rw [quantize_body_ok bs mid g fr hq mb a fa data ha hfa hp hs hz hm hne _ i hi
    (by rw [quant_outputs_length data i (le_of_lt hi)]; exact hi) hok]
  unfold quant_outputs
  rw [set_map_take_replicate data (quantized data) 0 i hi]

theorem quantize_loop_ok (ha : bs[a]? = some (Block.header mb))
    (hfa : bs[fa]? = some (Block.float_array data)) (hp : mb.mem.ptr = some fa)
    (hn : mb.total_size = data.length)
    (hs : hq.scale_factor = scale_of data) (hz : hq.zero_pt = zero_point_of data)
    (hm : hq.mem.ptr = some (bs.length + 1 + mid.length)) (hne : scale_of data ≠ 0)
    (hok : ∀ x ∈ data, elem_ok data x) :
    for_loop (fun s i => below_total_size s (some a) i)
        (quantize_body (some a) (some bs.length)) (data.length + 1) 0
        (quant_state bs mid g fr hq (List.replicate data.length 0)) =
      some (quant_state bs mid g fr hq (data.map (quantized data))) := by
  have key := for_loop_states (fun s i => below_total_size s (some a) i)
    (quantize_body (some a) (some bs.length))
    (fun i => quant_state bs mid g fr hq (quant_outputs data i)) data.length ?_ ?_ ?_
    (data.length + 1) 0 (Nat.zero_le _) (by omega)
  · simpa [quant_outputs] using key
  · intro i hi
    simp [quantize_cond bs mid g fr hq mb a data ha hn, hi]
  · intro i hi
    exact quantize_step bs mid g fr hq mb a fa data ha hfa hp hs hz hm hne i hi
      (hok _ (List.get_mem _ _ _))
  · simp [quantize_cond bs mid g fr hq mb a data ha hn]

theorem quantize_loop_undefined (ha : bs[a]? = some (Block.header mb))
    (hfa : bs[fa]? = some (Block.float_array data)) (hp : mb.mem.ptr = some fa)
    (hn : mb.total_size = data.length)
    (hs : hq.scale_factor = scale_of data) (hz : hq.zero_pt = zero_point_of data)
    (hm : hq.mem.ptr = some (bs.length + 1 + mid.length)) (hne : scale_of data ≠ 0)
    (hok : ¬ ∀ x ∈ data, elem_ok data x) (fuel : Nat) :
    for_loop (fun s i => below_total_size s (some a) i)
        (quantize_body (some a) (some bs.length)) fuel 0
        (quant_state bs mid g fr hq (List.replicate data.length 0)) = none := by
  have hfirst : ∀ k, ∀ hk : k < data.length, ¬ elem_ok data (data.get ⟨k, hk⟩) →
      for_loop (fun s i => below_total_size s (some a) i)
        (quantize_body (some a) (some bs.length)) fuel 0
        (quant_state bs mid g fr hq (quant_outputs data 0)) = none := by
    intro k
    induction k using Nat.strong_induction_on with
    | _ k ih =>
      intro hk hbad
      by_cases hall : ∀ i, ∀ hi : i < k, elem_ok data (data.get ⟨i, hi.trans hk⟩)
      · exact for_loop_stuck (fun s i => below_total_size s (some a) i)
          (quantize_body (some a) (some bs.length))
          (fun i => quant_state bs mid g fr hq (quant_outputs data i)) k
          (fun i hi => by
            simp [quantize_cond bs mid g fr hq mb a data ha hn, lt_of_le_of_lt hi hk])
          (fun i hi => quantize_step bs mid g fr hq mb a fa data ha hfa hp hs hz hm hne i
            (hi.trans hk) (hall i hi))
          (quantize_body_undefined bs mid g fr hq mb a fa data ha hfa hp hs hz hne _ k hk hbad)
          fuel 0 (Nat.zero_le _)
      · push_neg at hall
        obtain ⟨i, hi, hbad'⟩ := hall
        exact ih i hi (hi.trans hk) hbad'
  push_neg at hok
  obtain ⟨x, hx, hbad⟩ := hok
  obtain ⟨n, rfl⟩ := List.mem_iff_get.mp hx
  have := hfirst n.1 n.2 hbad
  simpa [quant_outputs] using this

end quantize

/-! ### `compress_to_int8` once `init_buffer` has returned a tensor -/

theorem deref_of_get {bs : List Block} {a : Nat} {mb : MicroBuffer} (gr : List Bool)
    (fr : MicroBuffer) (ha : bs[a]? = some (Block.header mb)) :
    Heap.deref ⟨bs, gr, fr⟩ (some a) = some mb := by
  simp only [Heap.deref, Heap.read, ha]

section compress
variable (bs mid : List Block) (gr g : List Bool) (fr hq0 mb : MicroBuffer) (a fa : Nat)
  (data : List ℚ)

theorem compress_ok (ha : bs[a]? = some (Block.header mb))
    (hmode : mb.mode = BufferMode.MODE_FLOAT32)
    (hfa : bs[fa]? = some (Block.float_array data)) (hp : mb.mem.ptr = some fa)
    (hn : mb.total_size = data.length)
    (hinit : init_buffer ⟨bs, gr, fr⟩ mb.dims mb.dim_count BufferMode.MODE_INT8 =
      some (⟨bs ++ Block.header hq0 ::
        (mid ++ [Block.int8_array (List.replicate data.length 0)]), g, fr⟩, some bs.length))
    (hm : hq0.mem.ptr = some (bs.length + 1 + mid.length)) (hne : scale_of data ≠ 0)
    (hpar : params_ok data) (hok : ∀ x ∈ data, elem_ok data x) :
    compress_to_int8 ⟨bs, gr, fr⟩ (some a) =
      some (⟨bs ++ Block.header { hq0 with scale_factor := scale_of data,
                                            zero_pt := zero_point_of data } ::
        (mid ++ [Block.int8_array (data.map (quantized data))]), g, fr⟩, some bs.length) := by
  have hd := deref_of_get gr fr ha
  have hscan := find_min_max_eq hd (by simpa [MemoryUnion.ptr_f, hp, Heap.read] using hfa) hn
  have hloop := quantize_loop_ok bs mid g fr
    { hq0 with scale_factor := scale_of data, zero_pt := zero_point_of data } mb a fa data
    ha hfa hp hn rfl rfl hm hne hok
  have h1 := int32_of_in hpar.1
  have h2 := int32_of_in hpar.2
  unfold zero_point_of at h2
  unfold quant_state at hloop
  unfold scale_of widened at h1 h2 hne
  simp only [compress_to_int8, hd, Option.bind_eq_bind, Option.some_bind, hmode, ne_eq,
    not_true_eq_false, if_false, hscan, hinit, assign_header, deref_header, fdiv, hne, h1, h2,
    deref_old _ g fr ha, hn, Int.toNat_ofNat, reduceCtorEq]
  simp only [zero_point_of, scale_of, widened] at hloop ⊢
  rw [hloop]
  rfl

theorem compress_undefined (ha : bs[a]? = some (Block.header mb))
    (hmode : mb.mode = BufferMode.MODE_FLOAT32)
    (hfa : bs[fa]? = some (Block.float_array data)) (hp : mb.mem.ptr = some fa)
    (hn : mb.total_size = data.length)
    (hinit : init_buffer ⟨bs, gr, fr⟩ mb.dims mb.dim_count BufferMode.MODE_INT8 =
      some (⟨bs ++ Block.header hq0 ::
        (mid ++ [Block.int8_array (List.replicate data.length 0)]), g, fr⟩, some bs.length))
    (hm : hq0.mem.ptr = some (bs.length + 1 + mid.length)) (hne : scale_of data ≠ 0)
    (hbad : ¬ (params_ok data ∧ ∀ x ∈ data, elem_ok data x)) :
    compress_to_int8 ⟨bs, gr, fr⟩ (some a) = none := by
  have hd := deref_of_get gr fr ha
  have hscan := find_min_max_eq hd (by simpa [MemoryUnion.ptr_f, hp, Heap.read] using hfa) hn
  have hne' := hne
  unfold scale_of widened at hne'
  by_cases h1 : in_int32 (c_round (-(scan data).1 / scale_of data))
  · by_cases h2 : in_int32 (zero_point_of data)
    · have hok : ¬ ∀ x ∈ data, elem_ok data x := fun h => hbad ⟨⟨h1, h2⟩, h⟩
      have hloop := quantize_loop_undefined bs mid g fr
        { hq0 with scale_factor := scale_of data, zero_pt := zero_point_of data } mb a fa data
        ha hfa hp hn rfl rfl hm hne hok (data.length + 1)
      have h1' := int32_of_in h1
      have h2' := int32_of_in h2
      unfold zero_point_of at h2'
      unfold quant_state at hloop
      unfold scale_of widened at h1' h2'
      simp only [compress_to_int8, hd, Option.bind_eq_bind, Option.some_bind, hmode, ne_eq,
        not_true_eq_false, if_false, hscan, hinit, assign_header, deref_header, fdiv, hne', h1',
        h2', deref_old _ g fr ha, hn, Int.toNat_ofNat, reduceCtorEq]
      simp only [zero_point_of, scale_of, widened] at hloop ⊢
      rw [hloop]
      rfl
    · have h1' := int32_of_in h1
      have h2' := int32_eq_none h2
      unfold zero_point_of at h2'
      unfold scale_of widened at h1' h2'
      simp only [compress_to_int8, hd, Option.bind_eq_bind, Option.some_bind, hmode, ne_eq,
        not_true_eq_false, if_false, hscan, hinit, assign_header, deref_header, fdiv, hne', h1',
        h2', Option.none_bind, reduceCtorEq]
  · have h1' := int32_eq_none h1
    unfold scale_of widened at h1'
    simp only [compress_to_int8, hd, Option.bind_eq_bind, Option.some_bind, hmode, ne_eq,
      not_true_eq_false, if_false, hscan, hinit, assign_header, deref_header, fdiv, hne', h1',
      Option.none_bind, reduceCtorEq]

end compress

/-! ### Rounding, minimum and maximum, scale -/

theorem c_round_neg (x : ℚ) : c_round (-x) = -c_round x := by
  unfold c_round
  rcases lt_trichotomy x 0 with h | h | h
  · have h1 : (0 : ℚ) ≤ -x := by linarith
    have h2 : ¬ (0 : ℚ) ≤ x := by linarith
    simp [h1, h2]
  · subst h
    norm_num
  · have h1 : ¬ (0 : ℚ) ≤ -x := by linarith
    have h2 : (0 : ℚ) ≤ x := by linarith
    simp [h1, h2]

theorem c_round_mono {x y : ℚ} (hxy : x ≤ y) : c_round x ≤ c_round y := by
  unfold c_round
  by_cases hx : (0 : ℚ) ≤ x
  · have hy : (0 : ℚ) ≤ y := le_trans hx hxy
    simp only [hx, hy, if_true]
    exact Int.floor_le_floor (by linarith)
  · by_cases hy : (0 : ℚ) ≤ y
    · simp only [hx, hy, if_true, if_false]
      have h1 : (0 : Int) ≤ ⌊-x + 1 / 2⌋ := Int.floor_nonneg.mpr (by linarith)
      have h2 : (0 : Int) ≤ ⌊y + 1 / 2⌋ := Int.floor_nonneg.mpr (by linarith)
      omega
    · simp only [hx, hy, if_false]
      have : ⌊-y + 1 / 2⌋ ≤ ⌊-x + 1 / 2⌋ := Int.floor_le_floor (by linarith)
      omega

theorem scan_fold_min (l : List ℚ) (s : ℚ × ℚ) :
    ((l.foldl scan_step s).1 = s.1 ∨ (l.foldl scan_step s).1 ∈ l) ∧
      (l.foldl scan_step s).1 ≤ s.1 ∧ ∀ x ∈ l, (l.foldl scan_step s).1 ≤ x := by
  induction l generalizing s with
  | nil => simp
  | cons a t ih =>
    rw [List.foldl_cons]
    obtain ⟨h1, h2, h3⟩ := ih (scan_step s a)
    have hs : (scan_step s a).1 = s.1 ∧ s.1 ≤ a ∨ (scan_step s a).1 = a ∧ a < s.1 := by
      unfold scan_step
      by_cases h : a < s.1
      · right; simp [h]
      · left; simp [h, not_lt.mp h]
    refine ⟨?_, ?_, ?_⟩
    · rcases h1 with h1 | h1
      · rcases hs with ⟨hs, -⟩ | ⟨hs, -⟩
        · left; rw [h1, hs]
        · right; rw [h1, hs]; exact List.mem_cons_self _ _
      · right; exact List.mem_cons_of_mem _ h1
    · rcases hs with ⟨hs, hle⟩ | ⟨hs, hlt⟩
      · rw [hs] at h2; exact h2
      · rw [hs] at h2; exact le_trans h2 (le_of_lt hlt)
    · intro x hx
      rcases List.mem_cons.mp hx with rfl | hx
      · rcases hs with ⟨hs, hle⟩ | ⟨hs, hlt⟩
        · rw [hs] at h2; exact le_trans h2 hle
        · rw [hs] at h2; exact h2
      · exact h3 x hx

theorem scan_fold_max (l : List ℚ) (s : ℚ × ℚ) :
    ((l.foldl scan_step s).2 = s.2 ∨ (l.foldl scan_step s).2 ∈ l) ∧
      s.2 ≤ (l.foldl scan_step s).2 ∧ ∀ x ∈ l, x ≤ (l.foldl scan_step s).2 := by
  induction l generalizing s with
  | nil => simp
  | cons a t ih =>
    rw [List.foldl_cons]
    obtain ⟨h1, h2, h3⟩ := ih (scan_step s a)
    have hs : (scan_step s a).2 = s.2 ∧ a ≤ s.2 ∨ (scan_step s a).2 = a ∧ s.2 < a := by
      unfold scan_step
      by_cases h : a > s.2
      · right; simp [h]
      · left; simp [h, not_lt.mp h]
    refine ⟨?_, ?_, ?_⟩
    · rcases h1 with h1 | h1
      · rcases hs with ⟨hs, -⟩ | ⟨hs, -⟩
        · left; rw [h1, hs]
        · right; rw [h1, hs]; exact List.mem_cons_self _ _
      · right; exact List.mem_cons_of_mem _ h1
    · rcases hs with ⟨hs, hle⟩ | ⟨hs, hlt⟩
      · rw [hs] at h2; exact h2
      · rw [hs] at h2; exact le_trans (le_of_lt hlt) h2
    · intro x hx
      rcases List.mem_cons.mp hx with rfl | hx
      · rcases hs with ⟨hs, hle⟩ | ⟨hs, hlt⟩
        · rw [hs] at h2; exact le_trans hle h2
        · rw [hs] at h2; exact h2
      · exact h3 x hx

theorem scan_min (data : List ℚ) (hne : data ≠ [])
    (hb : ∀ x ∈ data, -FLT_MAX ≤ x ∧ x ≤ FLT_MAX) :
    (scan data).1 ∈ data ∧ ∀ x ∈ data, (scan data).1 ≤ x := by
  obtain ⟨h1, -, h3⟩ := scan_fold_min data (FLT_MAX, -FLT_MAX)
  refine ⟨?_, h3⟩
  rcases h1 with h1 | h1
  · obtain ⟨x, hx⟩ := List.exists_mem_of_ne_nil data hne
    have hx1 := h3 x hx
    have hx2 := (hb x hx).2
    have : x = (scan data).1 := by
      unfold scan
      rw [h1]
      simp only [] at *
      exact le_antisymm hx2 (by rw [← h1]; exact hx1)
    rw [← this]
    exact hx
  · exact h1

theorem scan_max (data : List ℚ) (hne : data ≠ [])
    (hb : ∀ x ∈ data, -FLT_MAX ≤ x ∧ x ≤ FLT_MAX) :
    (scan data).2 ∈ data ∧ ∀ x ∈ data, x ≤ (scan data).2 := by
  obtain ⟨h1, -, h3⟩ := scan_fold_max data (FLT_MAX, -FLT_MAX)
  refine ⟨?_, h3⟩
  rcases h1 with h1 | h1
  · obtain ⟨x, hx⟩ := List.exists_mem_of_ne_nil data hne
    have hx1 := h3 x hx
    have hx2 := (hb x hx).1
    have : x = (scan data).2 := by
      unfold scan
      rw [h1]
      simp only [] at *
      exact le_antisymm (by rw [← h1]; exact hx1) hx2
    rw [← this]
    exact hx
  · exact h1

theorem float32_nonempty {h : Heap} {source : Option Nat} {shape : List Int} {data : List ℚ}
    (hT : Float32Tensor h source shape data) : data ≠ [] := by
  obtain ⟨mb, ⟨-, -, -, hpos, hprod, -⟩, -, -, hn, -⟩ := hT
  intro he
  have := prod_pos_of_pos shape hpos
  rw [hprod, hn, he] at this
  simp at this

theorem scan_le (data : List ℚ) (hne : data ≠ [])
    (hb : ∀ x ∈ data, -FLT_MAX ≤ x ∧ x ≤ FLT_MAX) : (scan data).1 ≤ (scan data).2 := by
  obtain ⟨x, hx⟩ := List.exists_mem_of_ne_nil data hne
  exact le_trans ((scan_min data hne hb).2 x hx) ((scan_max data hne hb).2 x hx)

theorem widened_gt (data : List ℚ) (hne : data ≠ [])
    (hb : ∀ x ∈ data, -FLT_MAX ≤ x ∧ x ≤ FLT_MAX) :
    (scan data).1 < widened (scan data) ∧ (scan data).2 ≤ widened (scan data) := by
  have hle := scan_le data hne hb
  unfold widened
  by_cases h : (scan data).2 = (scan data).1
  · simp only [h, if_true]
    constructor <;> linarith
  · simp only [h, if_false]
    exact ⟨lt_of_le_of_ne hle (Ne.symm h), le_refl _⟩

theorem scale_pos (data : List ℚ) (hne : data ≠ [])
    (hb : ∀ x ∈ data, -FLT_MAX ≤ x ∧ x ≤ FLT_MAX) : 0 < scale_of data := by
  have := (widened_gt data hne hb).1
  unfold scale_of
  apply div_pos <;> linarith

/-! ### What a returned tensor holds -/

theorem read_dims_new (bs post : List Block) (g : List Bool) (fr : MicroBuffer) (x b : Block) :
    Heap.read ⟨bs ++ x :: b :: post, g, fr⟩ (some (bs.length + 1)) = some b := by
  simpa using read_data bs [] post g fr x b

theorem compress_returns {h h' : Heap} {source : Option Nat} {shape : List Int} {data : List ℚ}
    {q : Nat} (hT : Float32Tensor h source shape data)
    (hres : compress_to_int8 h source = some (h', some q)) :
    q = h.blocks.length ∧ (∃ post, h'.blocks = h.blocks ++ post) ∧
      Int8Tensor h' (some q) shape (data.map (quantized data)) (scale_of data)
        (zero_point_of data) ∧
      params_ok data ∧ ∀ x ∈ data, elem_ok data x := by
  have hne := float32_nonempty hT
  obtain ⟨bs, gr, fr⟩ := h
  obtain ⟨mb, ⟨hd, hrank, hdims, hpos, hprod, hmax⟩, hmode, hf, hn, hb⟩ := hT
  obtain ⟨a, rfl, ha⟩ := deref_eq_some hd
  obtain ⟨fa, hp, hfa⟩ := read_eq_some hf
  have hsc := scale_pos data hne hb
  have hscan := find_min_max_eq hd hf hn
  have hdims' : shape = [] ∨ ∃ a, mb.dims = some a ∧ bs[a]? = some (Block.int_array shape) :=
    hdims.imp id read_eq_some
  rcases hinit : init_buffer ⟨bs, gr, fr⟩ mb.dims mb.dim_count BufferMode.MODE_INT8 with
    _ | ⟨h1, _ | q1⟩
  · simp [compress_to_int8, hd, hmode, hscan, hinit] at hres
  · simp [compress_to_int8, hd, hmode, hscan, hinit] at hres
  · have hinit' := hinit
    rw [hrank] at hinit'
    obtain ⟨d, mid, g, rfl, rfl, hmid⟩ := init_buffer_returns bs gr fr mb.dims shape
      BufferMode.MODE_INT8 hdims' hpos (by rw [hprod]; exact hmax) h1 q1 hinit'
    have hlen : shape.prod.toNat = data.length := by rw [hprod, hn]; simp
    simp only [init_header, zero_block, hlen] at hinit
    by_cases hconv : params_ok data ∧ ∀ x ∈ data, elem_ok data x
    · rw [compress_ok bs mid gr g fr _ mb a fa data ha hmode hfa hp hn hinit rfl (ne_of_gt hsc)
        hconv.1 hconv.2] at hres
      simp only [Option.some.injEq, Prod.mk.injEq] at hres
      obtain ⟨rfl, rfl⟩ := hres
      refine ⟨rfl, ⟨_, rfl⟩, ⟨_, ⟨deref_header _ _ _ _ _, rfl, ?_, hpos, ?_, ?_⟩, rfl, ?_, ?_,
        rfl, rfl⟩, hconv.1, hconv.2⟩
      · rcases hmid with hs | ⟨rfl, rfl⟩
        · exact Or.inl hs
        · exact Or.inr (read_dims_new _ _ _ _ _ _)
      · rfl
      · simp only []
        rw [hprod]
        exact hmax
      · exact read_data _ _ _ _ _ _ _
      · simp only [List.length_map]
        rw [hprod, hn]
    · rw [compress_undefined bs mid gr g fr _ mb a fa data ha hmode hfa hp hn hinit rfl
        (ne_of_gt hsc) hconv] at hres
      cases hres

/-! ### Frame: the blocks allocated before a call are not written -/

theorem for_loop_invariant {σ : Type} (cond : σ → Nat → Option Bool)
    (body : σ → Nat → Option σ) (P : σ → Prop)
    (hP : ∀ s i s', P s → body s i = some s' → P s') :
    ∀ (fuel i : Nat) (s s' : σ), P s → for_loop cond body fuel i s = some s' → P s' := by
  intro fuel
  induction fuel with
  | zero => intro i s s' _ h; simp [for_loop] at h
  | succ k ih =>
    intro i s s' hs h
    rw [for_loop] at h
    split at h
    · cases h
    · cases h; exact hs
    · split at h
      · cases h
      · next s1 hb => exact ih (i + 1) s1 s' (hP s i s1 hs hb) h

theorem store_keeps {bs : List Block} {s : Heap} (hk : Keeps bs s) {a : Nat}
    (ha : bs.length ≤ a) (b : Block) : Keeps bs (s.store a b) := by
  obtain ⟨post, hp⟩ := hk
  refine ⟨post.set (a - bs.length) b, ?_⟩
  simp only [Heap.store, hp]
  exact List.set_append_right _ _ ha

theorem deref_store_ne (s : Heap) {a n : Nat} (hne : a ≠ n) (b : Block) :
    (s.store a b).deref (some n) = s.deref (some n) := by
  simp only [Heap.deref, Heap.read, Heap.store, List.getElem?_set_ne hne]

theorem deref_store_self {s : Heap} {n : Nat} {mb : MicroBuffer}
    (hd : s.deref (some n) = some mb) (mb2 : MicroBuffer) :
    (s.store n (Block.header mb2)).deref (some n) = some mb2 := by
  have hlt : n < s.blocks.length := by
    by_contra hc
    simp [Heap.deref, Heap.read, List.getElem?_eq_none (not_lt.mp hc)] at hd
  simp [Heap.deref, Heap.read, Heap.store, List.getElem?_set_self hlt]

theorem deref_block {s : Heap} {n : Nat} {mb : MicroBuffer} (hd : s.deref (some n) = some mb) :
    s.blocks[n]? = some (Block.header mb) := by
  obtain ⟨bs, gr, fr⟩ := s
  obtain ⟨a, ha, hb⟩ := deref_eq_some hd
  cases ha
  exact hb

theorem assign_inv {s s1 : Heap} {p : Option Nat} {f : MicroBuffer → MicroBuffer}
    (h : s.assign p f = some s1) :
    ∃ a mb, p = some a ∧ s.deref (some a) = some mb ∧ s1 = s.store a (Block.header (f mb)) := by
  unfold Heap.assign at h
  split at h
  · next a mb heq =>
    cases h
    exact ⟨a, mb, rfl, by simp only [Heap.deref, heq], rfl⟩
  · cases h

theorem set_int_inv {s s1 : Heap} {p : Option Nat} {i : Nat} {v : Int}
    (h : s.set_int p i v = some s1) :
    ∃ a xs, p = some a ∧ s.blocks[a]? = some (Block.int_array xs) ∧
      s1 = s.store a (Block.int_array (xs.set i v)) := by
  unfold Heap.set_int at h
  split at h
  · next a xs heq =>
    split at h
    · cases h
      exact ⟨a, xs, rfl, heq, rfl⟩
    · cases h
  · cases h

theorem set_int8_inv {s s1 : Heap} {p : Option Nat} {i : Nat} {v : Int}
    (h : s.set_int8 p i v = some s1) :
    ∃ a xs, p = some a ∧ s.blocks[a]? = some (Block.int8_array xs) ∧
      s1 = s.store a (Block.int8_array (xs.set i v)) := by
  unfold Heap.set_int8 at h
  split at h
  · next a xs heq =>
    split at h
    · cases h
      exact ⟨a, xs, rfl, heq, rfl⟩
    · cases h
  · cases h

theorem init_body_keeps (bs : List Block) (d dimensions : Option Nat)
    (hd : ∀ a, d = some a → bs.length < a) (s : Heap) (i : Nat) (s' : Heap)
    (hs : HeaderDims bs d s) (hb : init_buffer_body dimensions (some bs.length) s i = some s') :
    HeaderDims bs d s' := by
  obtain ⟨hk, mb, hmb, hdims⟩ := hs
  simp only [init_buffer_body, Option.bind_eq_bind, Option.bind_eq_some] at hb
  obtain ⟨v, -, mb1, hmb1, s1, hs1, mb2, hmb2, v2, -, t, -, hs2⟩ := hb
  rw [hmb] at hmb1
  cases hmb1
  obtain ⟨a, xs, hpa, hxs, rfl⟩ := set_int_inv hs1
  have han : bs.length < a := hd a (hdims ▸ hpa)
  have hk1 := store_keeps hk (le_of_lt han) (Block.int_array (xs.set i v))
  have hd1 : (s.store a (Block.int_array (xs.set i v))).deref (some bs.length) = some mb := by
    rw [deref_store_ne s (ne_of_gt han)]
    exact hmb
  obtain ⟨a2, mb3, hp2, hmb3, rfl⟩ := assign_inv hs2
  cases hp2
  rw [hd1] at hmb3
  cases hmb3
  exact ⟨store_keeps hk1 (le_refl _) _, _, deref_store_self hd1 _, hdims⟩

theorem quantize_body_keeps (bs : List Block) (f source : Option Nat)
    (hf : ∀ a, f = some a → bs.length < a) (s : Heap) (i : Nat) (s' : Heap)
    (hs : HeaderMem bs f s) (hb : quantize_body source (some bs.length) s i = some s') :
    HeaderMem bs f s' := by
  obtain ⟨hk, mb, hmb, hmem⟩ := hs
  simp only [quantize_body, Option.bind_eq_bind, Option.bind_eq_some] at hb
  obtain ⟨src, -, real, -, mb1, hmb1, dv, -, k, -, mb2, hmb2, raw, -, mb3, hmb3, hs1⟩ := hb
  rw [hmb] at hmb3
  cases hmb3
  obtain ⟨a, xs, hpa, hxs, rfl⟩ := set_int8_inv hs1
  have han : bs.length < a := hf a (by rw [← hmem]; exact hpa)
  refine ⟨store_keeps hk (le_of_lt han) _, mb, ?_, hmem⟩
  rw [deref_store_ne s (ne_of_gt han)]
  exact hmb

theorem alloc_frame {bs : List Block} {s s' : Heap} {b : Block} {f : Option Nat}
    (hk : Keeps bs s) (h : s.alloc b = (s', f)) :
    Keeps bs s' ∧ (∀ a, f = some a → a = s.blocks.length) ∧
      ∀ n mb, s.deref (some n) = some mb → s'.deref (some n) = some mb := by
  obtain ⟨post, hp⟩ := hk
  unfold Heap.alloc at h
  split at h
  · cases h
    exact ⟨⟨post, hp⟩, fun a ha => (by cases ha), fun n mb hd => hd⟩
  · cases h
    refine ⟨⟨post ++ [b], by simp [hp]⟩, fun a ha => (by cases ha; rfl), fun n mb hd => ?_⟩
    have hb := deref_block hd
    obtain ⟨bl, gr, fr⟩ := s
    exact deref_old [b] _ fr hb
  · cases h
    exact ⟨⟨post, hp⟩, fun a ha => (by cases ha), fun n mb hd => hd⟩

theorem calloc_frame {bs : List Block} {s s' : Heap} {c : Int} {z : Nat → Block}
    {f : Option Nat} (hk : Keeps bs s) (h : s.calloc c z = (s', f)) :
    Keeps bs s' ∧ (∀ a, f = some a → a = s.blocks.length) ∧
      ∀ n mb, s.deref (some n) = some mb → s'.deref (some n) = some mb := by
  unfold Heap.calloc at h
  split at h
  · cases h
    exact ⟨hk, fun a ha => (by cases ha), fun n mb hd => hd⟩
  · exact alloc_frame hk h

theorem deref_lt {s : Heap} {n : Nat} {mb : MicroBuffer} (hd : s.deref (some n) = some mb) :
    n < s.blocks.length := by
  by_contra hc
  simp [Heap.deref, Heap.read, List.getElem?_eq_none (not_lt.mp hc)] at hd

theorem assign_frame {bs : List Block} {s s1 : Heap} {f : MicroBuffer → MicroBuffer}
    (hk : Keeps bs s) (h : s.assign (some bs.length) f = some s1) :
    Keeps bs s1 ∧ ∃ mb, s.deref (some bs.length) = some mb ∧
      s1.deref (some bs.length) = some (f mb) := by
  obtain ⟨a, mb, hp, hmb, rfl⟩ := assign_inv h
  cases hp
  exact ⟨store_keeps hk (le_refl _) _, mb, hmb, deref_store_self hmb _⟩

theorem init_data_frame {bs : List Block} {h7 h1 : Heap} {mode : BufferMode} {r : Option Nat}
    (hk : Keeps bs h7)
    (h : init_buffer_data h7 (some bs.length) mode = some (h1, r)) :
    Keeps bs h1 ∧ ∀ q, r = some q → q = bs.length ∧ ∃ a, bs.length < a ∧
      HeaderMem bs (some a) h1 := by
  cases mode
  · simp only [init_buffer_data, Option.bind_eq_bind, Option.bind_eq_some] at h
    obtain ⟨mb, hmb, h⟩ := h
    rcases hc : h7.calloc mb.total_size fun n => Block.float_array (List.replicate n 0)
      with ⟨h8, f⟩
    rw [hc] at h
    simp only [Option.bind_eq_some] at h
    obtain ⟨h9, ha9, h10, ha10, h11, ha11, mb11, hmb11, hres⟩ := h
    obtain ⟨hk8, hf, hd8⟩ := calloc_frame hk hc
    obtain ⟨hk9, m9, hm9, hd9⟩ := assign_frame hk8 ha9
    obtain ⟨hk10, m10, hm10, hd10⟩ := assign_frame hk9 ha10
    obtain ⟨hk11, m11, hm11, hd11⟩ := assign_frame hk10 ha11
    rw [hd9] at hm10
    cases hm10
    rw [hd10] at hm11
    cases hm11
    rw [hd11] at hmb11
    cases hmb11
    simp only [MemoryUnion.ptr_f] at hres
    split at hres
    · cases hres
      exact ⟨hk11, fun q hq => by cases hq⟩
    · next hne =>
      cases hres
      refine ⟨hk11, fun q hq => ?_⟩
      cases hq
      obtain ⟨a, ha⟩ := Option.ne_none_iff_exists'.mp hne
      refine ⟨rfl, a, ?_, hk11, _, hd11, ha⟩
      rw [hf a ha]
      exact deref_lt hmb
  · simp only [init_buffer_data, Option.bind_eq_bind, Option.bind_eq_some] at h
    obtain ⟨mb, hmb, h⟩ := h
    rcases hc : h7.calloc mb.total_size fun n => Block.int8_array (List.replicate n 0)
      with ⟨h8, f⟩
    rw [hc] at h
    simp only [Option.bind_eq_some] at h
    obtain ⟨h9, ha9, mb9, hmb9, hres⟩ := h
    obtain ⟨hk8, hf, hd8⟩ := calloc_frame hk hc
    obtain ⟨hk9, m9, hm9, hd9⟩ := assign_frame hk8 ha9
    rw [hd9] at hmb9
    cases hmb9
    simp only [MemoryUnion.ptr_i] at hres
    split at hres
    · cases hres
      exact ⟨hk9, fun q hq => by cases hq⟩
    · next hne =>
      cases hres
      refine ⟨hk9, fun q hq => ?_⟩
      cases hq
      obtain ⟨a, ha⟩ := Option.ne_none_iff_exists'.mp hne
      refine ⟨rfl, a, ?_, hk9, _, hd9, ha⟩
      rw [hf a ha]
      exact deref_lt hmb

theorem init_buffer_unfold (h : Heap) (dimensions : Option Nat) (rank : Int)
    (mode : BufferMode) :
    init_buffer h dimensions rank mode =
      match h.malloc_struct with
      | (h1, none) => some (h1, none)
      | (h1, some a) =>
        (h1.assign (some a) fun x => { x with dim_count := rank }).bind fun h2 =>
        (h2.assign (some a) fun x => { x with mode := mode }).bind fun h3 =>
        (h3.calloc rank fun n => Block.int_array (List.replicate n 0)).1.assign (some a)
          (fun x => { x with
            dims := (h3.calloc rank fun n => Block.int_array (List.replicate n 0)).2 })
          |>.bind fun h5 =>
        (h5.assign (some a) fun x => { x with total_size := 1 }).bind fun h6 =>
        (for_loop (fun _ i => some (decide ((i : Int) < rank)))
          (init_buffer_body dimensions (some a)) (rank.toNat + 1) 0 h6).bind fun h7 =>
        init_buffer_data h7 (some a) mode := by
  unfold init_buffer init_buffer_data
  cases mode <;> rfl

theorem init_buffer_frame {bs : List Block} {gr : List Bool} {fr : MicroBuffer}
    {dimensions : Option Nat} {rank : Int} {mode : BufferMode} {h1 : Heap} {r : Option Nat}
    (h : init_buffer ⟨bs, gr, fr⟩ dimensions rank mode = some (h1, r)) :
    Keeps bs h1 ∧ ∀ q, r = some q → q = bs.length ∧ ∃ a, bs.length < a ∧
      HeaderMem bs (some a) h1 := by
  rw [init_buffer_unfold] at h
  rcases grants_cases gr with hr | ⟨r1, rfl⟩
  · rcases hr with rfl | ⟨g, rfl⟩ <;>
      simp only [Heap.malloc_struct, Heap.alloc, Option.some.injEq, Prod.mk.injEq] at h <;>
      obtain ⟨rfl, rfl⟩ := h <;>
      exact ⟨⟨[], by simp⟩, fun q hq => by cases hq⟩
  · simp only [Heap.malloc_struct, Heap.alloc, assign_header, Option.bind_eq_bind,
      Option.some_bind] at h
    rcases hc : Heap.calloc ⟨bs ++ [Block.header
        { dims := fr.dims, dim_count := rank, total_size := fr.total_size, mode := mode,
          mem := fr.mem, scale_factor := fr.scale_factor, zero_pt := fr.zero_pt }], r1, fr⟩ rank
        (fun n => Block.int_array (List.replicate n 0)) with ⟨h4, d⟩
    rw [hc] at h
    simp only [Option.bind_eq_some] at h
    obtain ⟨h5, ha5, h6, ha6, h7, hloop, htail⟩ := h
    have hk3 : Keeps bs (⟨bs ++ [Block.header
        { dims := fr.dims, dim_count := rank, total_size := fr.total_size, mode := mode,
          mem := fr.mem, scale_factor := fr.scale_factor, zero_pt := fr.zero_pt }], r1, fr⟩ :
          Heap) := ⟨_, rfl⟩
    obtain ⟨hk4, hd, -⟩ := calloc_frame hk3 hc
    obtain ⟨hk5, m5, -, hd5⟩ := assign_frame hk4 ha5
    obtain ⟨hk6, m6, hm6, hd6⟩ := assign_frame hk5 ha6
    rw [hd5] at hm6
    cases hm6
    have hdn : ∀ a, d = some a → bs.length < a := by
      intro a ha
      rw [hd a ha]
      simp
    have h7inv : HeaderDims bs d h7 :=
      for_loop_invariant _ _ (HeaderDims bs d)
        (fun s i s' hs hb => init_body_keeps bs d dimensions hdn s i s' hs hb)
        _ _ h6 h7 ⟨hk6, _, hd6, rfl⟩ hloop
    exact init_data_frame h7inv.1 htail

theorem compress_frame {h h' : Heap} {source r : Option Nat}
    (hres : compress_to_int8 h source = some (h', r)) :
    ∃ post, h'.blocks = h.blocks ++ post := by
  obtain ⟨bs, gr, fr⟩ := h
  show Keeps bs h'
  rcases hd : Heap.deref ⟨bs, gr, fr⟩ source with _ | src
  · simp [compress_to_int8, hd] at hres
  by_cases hmode : src.mode = BufferMode.MODE_FLOAT32
  swap
  · simp only [compress_to_int8, hd, Option.bind_eq_bind, Option.some_bind, ne_eq, hmode,
      not_false_eq_true, if_true, Option.some.injEq, Prod.mk.injEq] at hres
    rw [← hres.1]
    exact ⟨[], by simp⟩
  rcases hscan : find_min_max ⟨bs, gr, fr⟩ source with _ | ⟨min_v, max_v0⟩
  · simp [compress_to_int8, hd, hmode, hscan] at hres
  rcases hinit : init_buffer ⟨bs, gr, fr⟩ src.dims src.dim_count BufferMode.MODE_INT8 with
    _ | ⟨h1, q_buf⟩
  · simp [compress_to_int8, hd, hmode, hscan, hinit] at hres
  simp only [compress_to_int8, hd, Option.bind_eq_bind, Option.some_bind, ne_eq, hmode,
    not_true_eq_false, if_false, hscan, hinit] at hres
  obtain ⟨hk1, hq⟩ := init_buffer_frame hinit
  split at hres
  · cases hres
    exact hk1
  · next hne =>
    obtain ⟨q, rfl⟩ := Option.ne_none_iff_exists'.mp hne
    obtain ⟨rfl, a, han, -, mbq, hmbq, hmem⟩ := hq q rfl
    simp only [Option.bind_eq_some] at hres
    obtain ⟨h2, ha2, mb2, -, dv, -, k, -, z, -, h3, ha3, src4, -, h4, hloop, hres⟩ := hres
    have hh : h' = h4 := by
      cases hres
      rfl
    rw [hh]
    obtain ⟨hk2, m2, hm2, hd2⟩ := assign_frame hk1 ha2
    obtain ⟨hk3, m3, hm3, hd3⟩ := assign_frame hk2 ha3
    rw [hmbq] at hm2
    cases hm2
    rw [hd2] at hm3
    cases hm3
    have hf : ∀ b, some a = some b → bs.length < b := by
      intro b hb
      cases hb
      exact han
    exact (for_loop_invariant _ _ (HeaderMem bs (some a))
      (fun s i s' hs hb => quantize_body_keeps bs (some a) source hf s i s' hs hb)
      _ _ h3 h4 ⟨hk3, _, hd3, hmem⟩ hloop).1

/-! ### When the allocations are granted -/

theorem init_buffer_head_zero (bs : List Block) (r : List Bool) (fr : MicroBuffer)
    (dimensions : Option Nat) (mode : BufferMode) :
    init_buffer ⟨bs, true :: true :: r, fr⟩ dimensions 0 mode =
      init_buffer_data ⟨bs ++ [Block.header ⟨some (bs.length + 1), 0, 1, mode, fr.mem,
        fr.scale_factor, fr.zero_pt⟩, Block.int_array []], r, fr⟩ (some bs.length) mode := by
  simp [init_buffer, init_buffer_data, Heap.malloc_struct, Heap.alloc, Heap.calloc,
    assign_header, for_loop]

theorem init_buffer_granted_any (bs : List Block) (g : List Bool) (fr : MicroBuffer)
    (dimensions : Option Nat) (shape : List Int) (mode : BufferMode)
    (hdims : shape = [] ∨ ∃ a, dimensions = some a ∧ bs[a]? = some (Block.int_array shape))
    (hpos : ∀ d ∈ shape, 0 < d) (hmax : shape.prod ≤ INT_MAX) :
    init_buffer ⟨bs, true :: true :: true :: g, fr⟩ dimensions shape.length mode =
      some (⟨bs ++ [Block.header (init_header mode
          ⟨some (bs.length + 1), shape.length, shape.prod, mode, fr.mem, fr.scale_factor,
            fr.zero_pt⟩ (some (bs.length + 2))),
        Block.int_array shape, zero_block mode shape.prod.toNat], g, fr⟩, some bs.length) := by
  by_cases hs : shape = []
  · subst hs
    simp only [List.length_nil, Nat.cast_zero, List.prod_nil]
    rw [init_buffer_head_zero]
    have := init_buffer_data_ok bs [Block.int_array []] g fr
      ⟨some (bs.length + 1), 0, 1, mode, fr.mem, fr.scale_factor, fr.zero_pt⟩ mode (by simp)
    simpa using this
  · rcases hdims with hs' | ⟨a, rfl, hdim⟩
    · exact absurd hs' hs
    · exact init_buffer_granted bs a shape g fr mode hdim hpos hmax

theorem compress_granted {h : Heap} {source : Option Nat} {shape : List Int} {data : List ℚ}
    {g : List Bool} (hT : Float32Tensor h source shape data)
    (hg : h.grants = true :: true :: true :: g) :
    (Representable data → compress_to_int8 h source =
      some (⟨h.blocks ++ [Block.header ⟨some (h.blocks.length + 1), shape.length, data.length,
          BufferMode.MODE_INT8, ⟨some (h.blocks.length + 2)⟩, scale_of data,
          zero_point_of data⟩, Block.int_array shape,
        Block.int8_array (data.map (quantized data))], g, h.fresh⟩, some h.blocks.length)) ∧
      (¬ Representable data → compress_to_int8 h source = none) := by
  have hne := float32_nonempty hT
  obtain ⟨bs, gr, fr⟩ := h
  simp only [] at hg
  subst hg
  obtain ⟨mb, ⟨hd, hrank, hdims, hpos, hprod, hmax⟩, hmode, hf, hn, hb⟩ := hT
  obtain ⟨a, rfl, ha⟩ := deref_eq_some hd
  obtain ⟨fa, hp, hfa⟩ := read_eq_some hf
  have hsc := scale_pos data hne hb
  have hdims' : shape = [] ∨ ∃ a, mb.dims = some a ∧ bs[a]? = some (Block.int_array shape) :=
    hdims.imp id read_eq_some
  have hinit := init_buffer_granted_any bs g fr mb.dims shape BufferMode.MODE_INT8 hdims' hpos
    (by rw [hprod]; exact hmax)
  have hlen : shape.prod.toNat = data.length := by rw [hprod, hn]; simp
  simp only [init_header, zero_block, hlen] at hinit
  rw [hprod, hn, ← hrank] at hinit
  have hinit2 : init_buffer ⟨bs, true :: true :: true :: g, fr⟩ mb.dims mb.dim_count
      BufferMode.MODE_INT8 = some (⟨bs ++ Block.header ⟨some (bs.length + 1), mb.dim_count,
        data.length, BufferMode.MODE_INT8, ⟨some (bs.length + 2)⟩, fr.scale_factor,
        fr.zero_pt⟩ ::
        ([Block.int_array shape] ++ [Block.int8_array (List.replicate data.length 0)]), g, fr⟩,
        some bs.length) := by
    rw [hinit]
    rfl
  constructor
  · intro hrep
    rw [compress_ok bs [Block.int_array shape] _ g fr _ mb a fa data ha hmode hfa hp hn
      hinit2 rfl (ne_of_gt hsc) hrep.1 hrep.2, hrank]
    rfl
  · intro hrep
    exact compress_undefined bs [Block.int_array shape] _ g fr _ mb a fa data ha hmode hfa hp hn
      hinit2 rfl (ne_of_gt hsc) hrep

theorem CLAMP_bounds (x : Int) : MIN_Q ≤ CLAMP x MIN_Q MAX_Q ∧ CLAMP x MIN_Q MAX_Q ≤ MAX_Q := by
  unfold CLAMP MIN_Q MAX_Q
  split
  · omega
  · split <;> omega

theorem to_int8_of_range {x : Int} (h1 : -128 ≤ x) (h2 : x ≤ 127) : to_int8 x = x := by
  unfold to_int8
  omega

theorem quantized_eq (data : List ℚ) (x : ℚ) :
    quantized data x = CLAMP (raw_of data x) (-128) 127 := by
  have h := CLAMP_bounds (raw_of data x)
  unfold MIN_Q MAX_Q at h
  unfold quantized
  exact to_int8_of_range h.1 h.2

theorem c_round_of_nonneg {x : ℚ} {k : Int} (h0 : 0 ≤ x) (h1 : (k : ℚ) ≤ x + 1 / 2)
    (h2 : x + 1 / 2 < k + 1) : c_round x = k := by
  unfold c_round
  simp only [h0, if_true]
  exact Int.floor_eq_iff.mpr ⟨h1, h2⟩

theorem c_round_of_neg {x : ℚ} {k : Int} (h0 : x < 0) (h1 : (k : ℚ) ≤ -x + 1 / 2)
    (h2 : -x + 1 / 2 < k + 1) : c_round x = -k := by
  unfold c_round
  simp only [not_le.mpr h0, if_false]
  rw [Int.floor_eq_iff.mpr ⟨h1, h2⟩]

/-! ### The run on the tensor `[-0.5, 254.5]` -/

theorem example_tensor : Float32Tensor example_heap (some 0) [2] [-1 / 2, 509 / 2] := by
  refine ⟨⟨some 1, 1, 2, BufferMode.MODE_FLOAT32, ⟨some 2⟩, 0, 0⟩, ⟨rfl, rfl, Or.inr rfl, ?_,
    rfl, ?_⟩, rfl, rfl, rfl, ?_⟩
  · intro d hd
    simp at hd
    omega
  · unfold INT_MAX
    norm_num
  · intro x hx
    simp at hx
    unfold FLT_MAX
    rcases hx with rfl | rfl <;> norm_num

theorem example_scan : scan [-1 / 2, 509 / 2] = (-1 / 2, 509 / 2) := by
  norm_num [scan, scan_step, FLT_MAX]

theorem example_scale : scale_of [-1 / 2, 509 / 2] = 1 := by
  rw [scale_of, example_scan]
  norm_num [widened]

theorem example_zero_point : zero_point_of [-1 / 2, 509 / 2] = -127 := by
  rw [zero_point_of, example_scan, example_scale,
    c_round_of_nonneg (k := 1) (by norm_num) (by norm_num) (by norm_num)]
  norm_num

theorem example_raw_low : raw_of [-1 / 2, 509 / 2] (-1 / 2) = -128 := by
  rw [raw_of, example_zero_point, example_scale,
    c_round_of_neg (k := 1) (by norm_num) (by norm_num) (by norm_num)]
  norm_num

theorem example_raw_high : raw_of [-1 / 2, 509 / 2] (509 / 2) = 128 := by
  rw [raw_of, example_zero_point, example_scale,
    c_round_of_nonneg (k := 255) (by norm_num) (by norm_num) (by norm_num)]
  norm_num

theorem example_representable : Representable [-1 / 2, 509 / 2] := by
  refine ⟨⟨?_, ?_⟩, ?_⟩
  · rw [example_scan, example_scale,
      c_round_of_nonneg (k := 1) (by norm_num) (by norm_num) (by norm_num)]
    unfold in_int32 INT_MIN INT_MAX
    norm_num
  · rw [example_zero_point]
    unfold in_int32 INT_MIN INT_MAX
    norm_num
  · intro x hx
    simp only [List.mem_cons, List.mem_singleton, List.not_mem_nil, or_false] at hx
    rcases hx with rfl | rfl
    · refine ⟨?_, ?_⟩
      · rw [example_scale, c_round_of_neg (k := 1) (by norm_num) (by norm_num) (by norm_num)]
        unfold in_int32 INT_MIN INT_MAX
        norm_num
      · rw [example_raw_low]
        unfold in_int32 INT_MIN INT_MAX
        norm_num
    · refine ⟨?_, ?_⟩
      · rw [example_scale, c_round_of_nonneg (k := 255) (by norm_num) (by norm_num) (by norm_num)]
        unfold in_int32 INT_MIN INT_MAX
        norm_num
      · rw [example_raw_high]
        unfold in_int32 INT_MIN INT_MAX
        norm_num

theorem example_run : compress_to_int8 example_heap (some 0) = some (example_result, some 3) := by
  rw [(compress_granted example_tensor rfl).1 example_representable]
  simp only [List.map_cons, List.map_nil, quantized_eq, example_raw_low, example_raw_high,
    example_scale, example_zero_point]
  rfl

/-! ## The claims -/

/-! ### C1, C2: output range and round-trip error -/

/-- C1: every element of the tensor returned by `compress_to_int8` for a Float32
tensor with at least one element lies in `[-128, 127]`. -/
theorem compress_to_int8_output_range {h h' : Heap} {source : Option Nat} {shape : List Int}
    {data : List ℚ} {q : Nat} (hT : Float32Tensor h source shape data)
    (hres : compress_to_int8 h source = some (h', some q)) :
    ∃ out scale zero_point, Int8Tensor h' (some q) shape out scale zero_point ∧
      ∀ e ∈ out, -128 ≤ e ∧ e ≤ 127 := by
  obtain ⟨-, -, hI, -, -⟩ := compress_returns hT hres
  refine ⟨_, _, _, hI, ?_⟩
  intro e he
  obtain ⟨x, -, rfl⟩ := List.mem_map.mp he
  rw [quantized_eq]
  exact CLAMP_bounds _

/-- C1, witness: the run on the tensor `[-0.5, 254.5]`. -/
theorem compress_to_int8_output_range_witness :
    ∃ out scale zero_point, Int8Tensor example_result (some 3) [2] out scale zero_point ∧
      ∀ e ∈ out, -128 ≤ e ∧ e ≤ 127 :=
  compress_to_int8_output_range example_tensor example_run

theorem CLAMP_eq_max_min (x : Int) : CLAMP x (-128) 127 = max (-128) (min x 127) := by
  unfold CLAMP
  split
  · omega
  · split <;> omega

/-- C8: the tensor returned by `compress_to_int8` for a Float32 tensor has mode
`MODE_INT8`, the rank, the dimension sequence and the element count of the
source, and a data buffer of exactly that many elements. -/
theorem compress_to_int8_same_shape {h h' : Heap} {source : Option Nat} {shape : List Int}
    {data : List ℚ} {q : Nat} (hT : Float32Tensor h source shape data)
    (hres : compress_to_int8 h source = some (h', some q)) :
    ∃ src mb out, h.deref source = some src ∧ h'.deref (some q) = some mb ∧
      mb.mode = BufferMode.MODE_INT8 ∧
      mb.dim_count = src.dim_count ∧ mb.dim_count = shape.length ∧
      (shape = [] ∨ (h.read src.dims = some (Block.int_array shape) ∧
        h'.read mb.dims = some (Block.int_array shape))) ∧
      mb.total_size = src.total_size ∧ mb.total_size = shape.prod ∧
      h'.read mb.mem.ptr_i = some (Block.int8_array out) ∧
      (out.length : Int) = mb.total_size ∧ out.length = data.length := by
  obtain ⟨-, -, ⟨mb, ⟨hd, hrank, hdims, -, hprod, -⟩, hmode, hmem, hn, -, -⟩, -, -⟩ :=
    compress_returns hT hres
  obtain ⟨src, ⟨hsd, hsrank, hsdims, -, hsprod, -⟩, -, -, hsn, -⟩ := hT
  refine ⟨src, mb, _, hsd, hd, hmode, by rw [hrank, hsrank], hrank, ?_, ?_, hprod.symm, hmem,
    hn.symm, by simp⟩
  · rcases hdims with hs | hdq
    · exact Or.inl hs
    · rcases hsdims with hs | hds
      · exact Or.inl hs
      · exact Or.inr ⟨hds, hdq⟩
  · rw [← hprod, hsprod]

/-- C8, witness: the run on the tensor `[-0.5, 254.5]`. -/
theorem compress_to_int8_same_shape_witness :
    ∃ src mb out, example_heap.deref (some 0) = some src ∧
      example_result.deref (some 3) = some mb ∧
      mb.mode = BufferMode.MODE_INT8 ∧
      mb.dim_count = src.dim_count ∧ mb.dim_count = ([2] : List Int).length ∧
      (([2] : List Int) = [] ∨ (example_heap.read src.dims = some (Block.int_array [2]) ∧
        example_result.read mb.dims = some (Block.int_array [2]))) ∧
      mb.total_size = src.total_size ∧ mb.total_size = ([2] : List Int).prod ∧
      example_result.read mb.mem.ptr_i = some (Block.int8_array out) ∧
      (out.length : Int) = mb.total_size ∧
      out.length = ([-1 / 2, 509 / 2] : List ℚ).length :=
  compress_to_int8_same_shape example_tensor example_run

/-! ### C9: the source is not mutated -/

theorem keeps_read {bs : List Block} {gr : List Bool} {fr : MicroBuffer} {h' : Heap}
    (hk : Keeps bs h') {p : Option Nat} {b : Block}
    (hb : Heap.read ⟨bs, gr, fr⟩ p = some b) : h'.read p = some b := by
  obtain ⟨post, hp⟩ := hk
  obtain ⟨a, rfl, ha⟩ := read_eq_some hb
  obtain ⟨bl, g2, f2⟩ := h'
  simp only [] at hp
  subst hp
  exact read_old post g2 f2 ha

theorem keeps_deref {bs : List Block} {gr : List Bool} {fr : MicroBuffer} {h' : Heap}
    (hk : Keeps bs h') {p : Option Nat} {mb : MicroBuffer}
    (hd : Heap.deref ⟨bs, gr, fr⟩ p = some mb) : h'.deref p = some mb := by
  obtain ⟨a, rfl, ha⟩ := deref_eq_some hd
  have hr : Heap.read ⟨bs, gr, fr⟩ (some a) = some (Block.header mb) := ha
  simp only [Heap.deref, keeps_read hk hr]

theorem compress_result_fresh {h h' : Heap} {source : Option Nat} {q : Nat}
    (hres : compress_to_int8 h source = some (h', some q)) : q = h.blocks.length := by
  obtain ⟨bs, gr, fr⟩ := h
  rcases hd : Heap.deref ⟨bs, gr, fr⟩ source with _ | src
  · simp [compress_to_int8, hd] at hres
  by_cases hmode : src.mode = BufferMode.MODE_FLOAT32
  swap
  · simp [compress_to_int8, hd, hmode] at hres
  rcases hscan : find_min_max ⟨bs, gr, fr⟩ source with _ | ⟨min_v, max_v0⟩
  · simp [compress_to_int8, hd, hmode, hscan] at hres
  rcases hinit : init_buffer ⟨bs, gr, fr⟩ src.dims src.dim_count BufferMode.MODE_INT8 with
    _ | ⟨h1, q_buf⟩
  · simp [compress_to_int8, hd, hmode, hscan, hinit] at hres
  simp only [compress_to_int8, hd, Option.bind_eq_bind, Option.some_bind, ne_eq, hmode,
    not_true_eq_false, if_false, hscan, hinit] at hres
  obtain ⟨-, hq⟩ := init_buffer_frame hinit
  split at hres
  · cases hres
  · next hne =>
    obtain ⟨q1, rfl⟩ := Option.ne_none_iff_exists'.mp hne
    obtain ⟨rfl, -⟩ := hq q1 rfl
    simp only [Option.bind_eq_some] at hres
    obtain ⟨h2, -, mb2, -, dv, -, k, -, z, -, h3, -, src4, -, h4, -, hres⟩ := hres
    cases hres
    rfl

/-- C9: `compress_to_int8` never mutates its input.  Whatever the heap and the
source pointer, and whether the call returns a tensor or `NULL`, every block
allocated before the call holds after it what it held before: the source struct
with all its fields, its dimension array and its data; a returned tensor is at
an address that was not allocated before. -/
theorem compress_to_int8_preserves_source (h h' : Heap) (source r : Option Nat)
    (hres : compress_to_int8 h source = some (h', r)) :
    (∀ p b, h.read p = some b → h'.read p = some b) ∧
      (∀ mb, h.deref source = some mb → h'.deref source = some mb) ∧
      (∀ shape data, Float32Tensor h source shape data → Float32Tensor h' source shape data) ∧
      (∀ shape data scale zero_point, Int8Tensor h source shape data scale zero_point →
        Int8Tensor h' source shape data scale zero_point) ∧
      ∀ q, r = some q → h.read (some q) = none := by
  have hk := compress_frame hres
  obtain ⟨bs, gr, fr⟩ := h
  have hk' : Keeps bs h' := hk
  have hread : ∀ p b, Heap.read ⟨bs, gr, fr⟩ p = some b → h'.read p = some b :=
    fun p b hb => keeps_read hk' hb
  have hderef : ∀ p mb, Heap.deref ⟨bs, gr, fr⟩ p = some mb → h'.deref p = some mb :=
    fun p mb hd => keeps_deref hk' hd
  have hat : ∀ p mb shape, TensorAt ⟨bs, gr, fr⟩ p mb shape → TensorAt h' p mb shape := by
    rintro p mb shape ⟨hd, hrank, hdims, hrest⟩
    exact ⟨hderef p mb hd, hrank, hdims.imp id (hread _ _), hrest⟩
  refine ⟨hread, hderef source, ?_, ?_, ?_⟩
  · rintro shape data ⟨mb, hT, hmode, hf, hrest⟩
    exact ⟨mb, hat _ _ _ hT, hmode, hread _ _ hf, hrest⟩
  · rintro shape data scale zero_point ⟨mb, hT, hmode, hf, hrest⟩
    exact ⟨mb, hat _ _ _ hT, hmode, hread _ _ hf, hrest⟩
  · intro q hq
    subst hq
    have := compress_result_fresh hres
    subst this
    simp [Heap.read]

/-- C9, witness: the run on the tensor `[-0.5, 254.5]`. -/
theorem compress_to_int8_preserves_source_witness :
    (∀ p b, example_heap.read p = some b → example_result.read p = some b) ∧
      (∀ mb, example_heap.deref (some 0) = some mb → example_result.deref (some 0) = some mb) ∧
      (∀ shape data, Float32Tensor example_heap (some 0) shape data →
        Float32Tensor example_result (some 0) shape data) ∧
      (∀ shape data scale zero_point,
        Int8Tensor example_heap (some 0) shape data scale zero_point →
        Int8Tensor example_result (some 0) shape data scale zero_point) ∧
      ∀ q, some 3 = some q → example_heap.read (some q) = none :=
  compress_to_int8_preserves_source example_heap example_result (some 0) (some 3) example_run

/-! ### C10: shape bookkeeping of `init_buffer` -/

/-- C10: for a shape of positive integers whose product fits in an `int` and
either mode, the tensor returned by `init_buffer` has `dim_count` equal to the
rank, `dims` pointing to its own copy of the sequence and `total_size` equal to
the product of the dimensions; for the shape `[5, 5]` the `total_size` is 25. -/
theorem init_buffer_shape (h h1 : Heap) (dimensions : Option Nat) (shape : List Int)
    (mode : BufferMode) (q : Nat)
    (hdims : shape = [] ∨ h.read dimensions = some (Block.int_array shape))
    (hpos : ∀ d ∈ shape, 0 < d) (hmax : shape.prod ≤ INT_MAX)
    (hres : init_buffer h dimensions shape.length mode = some (h1, some q)) :
    ∃ mb, h1.deref (some q) = some mb ∧ mb.mode = mode ∧ mb.dim_count = shape.length ∧
      (shape = [] ∨ (h1.read mb.dims = some (Block.int_array shape) ∧ mb.dims ≠ dimensions ∧
        h1.read dimensions = some (Block.int_array shape))) ∧
      mb.total_size = shape.prod ∧ (shape = [5, 5] → mb.total_size = 25) := by
  obtain ⟨bs, gr, fr⟩ := h
  have hdims' : shape = [] ∨ ∃ a, dimensions = some a ∧ bs[a]? = some (Block.int_array shape) :=
    hdims.imp id read_eq_some
  obtain ⟨d, mid, g, rfl, rfl, hmid⟩ :=
    init_buffer_returns bs gr fr dimensions shape mode hdims' hpos hmax h1 q hres
  have hfields : ∀ m, (init_header mode ⟨d, shape.length, shape.prod, mode, fr.mem,
      fr.scale_factor, fr.zero_pt⟩ m).mode = mode ∧
      (init_header mode ⟨d, shape.length, shape.prod, mode, fr.mem,
      fr.scale_factor, fr.zero_pt⟩ m).dim_count = shape.length ∧
      (init_header mode ⟨d, shape.length, shape.prod, mode, fr.mem,
      fr.scale_factor, fr.zero_pt⟩ m).total_size = shape.prod ∧
      (init_header mode ⟨d, shape.length, shape.prod, mode, fr.mem,
      fr.scale_factor, fr.zero_pt⟩ m).dims = d := by
    intro m
    cases mode <;> exact ⟨rfl, rfl, rfl, rfl⟩
  obtain ⟨hf1, hf2, hf3, hf4⟩ := hfields (some (bs.length + 1 + mid.length))
  refine ⟨_, deref_header _ _ _ _ _, hf1, hf2, ?_, hf3, ?_⟩
  · rcases hmid with hs | ⟨rfl, rfl⟩
    · exact Or.inl hs
    · rcases hdims' with hs | ⟨a, rfl, ha⟩
      · exact Or.inl hs
      · refine Or.inr ⟨?_, ?_, read_old _ _ _ ha⟩
        · rw [hf4]
          exact read_dims_new _ _ _ _ _ _
        · rw [hf4]
          intro he
          have hlt : a < bs.length := by
            by_contra hc
            rw [List.getElem?_eq_none (not_lt.mp hc)] at ha
            cases ha
          simp only [Option.some.injEq] at he
          omega
  · intro hs
    rw [hf3, hs]
    rfl

theorem main_init_buffer :
    init_buffer main_heap (some 0) (([5, 5] : List Int).length : Int)
      BufferMode.MODE_FLOAT32 = some (main_result, some 1) := by
  have := init_buffer_granted_any [Block.int_array [5, 5]] [] main_heap.fresh (some 0) [5, 5]
    BufferMode.MODE_FLOAT32 (Or.inr ⟨0, rfl, rfl⟩) (by intro d hd; simp at hd; omega)
    (by unfold INT_MAX; norm_num)
  exact this

/-- C10, witness: the call `init_buffer(matrix_shape, 2, MODE_FLOAT32)` of `main`. -/
theorem init_buffer_shape_witness :
    ∃ mb, main_result.deref (some 1) = some mb ∧ mb.mode = BufferMode.MODE_FLOAT32 ∧
      mb.dim_count = (([5, 5] : List Int).length : Int) ∧
      (([5, 5] : List Int) = [] ∨ (main_result.read mb.dims = some (Block.int_array [5, 5]) ∧
        mb.dims ≠ some 0 ∧ main_result.read (some 0) = some (Block.int_array [5, 5]))) ∧
      mb.total_size = ([5, 5] : List Int).prod ∧
      (([5, 5] : List Int) = [5, 5] → mb.total_size = 25) :=
  init_buffer_shape main_heap main_result (some 0) [5, 5] BufferMode.MODE_FLOAT32 1
    (Or.inr rfl) (by intro d hd; simp at hd; omega) (by unfold INT_MAX; norm_num)
    main_init_buffer

/-! ### C11: zero-filled data of `init_buffer` -/

/-- C11: the tensor returned by a successful `init_buffer` for a valid shape has
a data buffer of the requested kind with exactly `total_size` elements, every
one of them zero. -/
theorem init_buffer_zero_filled (h h1 : Heap) (dimensions : Option Nat) (shape : List Int)
    (mode : BufferMode) (q : Nat)
    (hdims : shape = [] ∨ h.read dimensions = some (Block.int_array shape))
    (hpos : ∀ d ∈ shape, 0 < d) (hmax : shape.prod ≤ INT_MAX)
    (hres : init_buffer h dimensions shape.length mode = some (h1, some q)) :
    ∃ mb, h1.deref (some q) = some mb ∧ mb.mode = mode ∧ mb.total_size = shape.prod ∧
      (mode = BufferMode.MODE_FLOAT32 →
        ∃ zs, h1.read mb.mem.ptr_f = some (Block.float_array zs) ∧
          (zs.length : Int) = mb.total_size ∧ ∀ z ∈ zs, z = 0) ∧
      (mode = BufferMode.MODE_INT8 →
        ∃ zs, h1.read mb.mem.ptr_i = some (Block.int8_array zs) ∧
          (zs.length : Int) = mb.total_size ∧ ∀ z ∈ zs, z = 0) := by
  obtain ⟨bs, gr, fr⟩ := h
  have hdims' : shape = [] ∨ ∃ a, dimensions = some a ∧ bs[a]? = some (Block.int_array shape) :=
    hdims.imp id read_eq_some
  obtain ⟨d, mid, g, rfl, rfl, -⟩ :=
    init_buffer_returns bs gr fr dimensions shape mode hdims' hpos hmax h1 q hres
  have hprod : 0 ≤ shape.prod := le_of_lt (prod_pos_of_pos shape hpos)
  have hlen : ((shape.prod.toNat : Nat) : Int) = shape.prod := Int.toNat_of_nonneg hprod
  cases mode
  · refine ⟨_, deref_header _ _ _ _ _, rfl, rfl, fun _ => ?_, fun hm => by cases hm⟩
    refine ⟨List.replicate shape.prod.toNat 0, read_data _ _ _ _ _ _ _, ?_, ?_⟩
    · simp only [List.length_replicate, init_header]
      exact hlen
    · intro z hz
      exact List.eq_of_mem_replicate hz
  · refine ⟨_, deref_header _ _ _ _ _, rfl, rfl, fun hm => (by cases hm), fun _ => ?_⟩
    refine ⟨List.replicate shape.prod.toNat 0, read_data _ _ _ _ _ _ _, ?_, ?_⟩
    · simp only [List.length_replicate, init_header]
      exact hlen
    · intro z hz
      exact List.eq_of_mem_replicate hz

/-- C11, witness: the call `init_buffer(matrix_shape, 2, MODE_FLOAT32)` of `main`. -/
theorem init_buffer_zero_filled_witness :
    ∃ mb, main_result.deref (some 1) = some mb ∧ mb.mode = BufferMode.MODE_FLOAT32 ∧
      mb.total_size = ([5, 5] : List Int).prod ∧
      (BufferMode.MODE_FLOAT32 = BufferMode.MODE_FLOAT32 →
        ∃ zs, main_result.read mb.mem.ptr_f = some (Block.float_array zs) ∧
          (zs.length : Int) = mb.total_size ∧ ∀ z ∈ zs, z = 0) ∧
      (BufferMode.MODE_FLOAT32 = BufferMode.MODE_INT8 →
        ∃ zs, main_result.read mb.mem.ptr_i = some (Block.int8_array zs) ∧
          (zs.length : Int) = mb.total_size ∧ ∀ z ∈ zs, z = 0) :=
  init_buffer_zero_filled main_heap main_result (some 0) [5, 5] BufferMode.MODE_FLOAT32 1
    (Or.inr rfl) (by intro d hd; simp at hd; omega) (by unfold INT_MAX; norm_num)
    main_init_buffer

/-! ### C12, C13: positive scale, determinism -/

/-- C12: the scale of the Int8 tensor that `compress_to_int8` returns for a
Float32 tensor with at least one element, degenerate or not, is strictly
positive. -/
theorem compress_to_int8_scale_pos {h h' : Heap} {source : Option Nat} {shape : List Int}
    {data : List ℚ} {q : Nat} (hT : Float32Tensor h source shape data)
    (hres : compress_to_int8 h source = some (h', some q)) :
    ∃ out scale zero_point, Int8Tensor h' (some q) shape out scale zero_point ∧ 0 < scale := by
  have hne := float32_nonempty hT
  obtain ⟨-, -, hI, -, -⟩ := compress_returns hT hres
  obtain ⟨mb, -, -, -, -, hb⟩ := hT
  exact ⟨_, _, _, hI, scale_pos data hne hb⟩

/-- C12, witness: the run on the tensor `[-0.5, 254.5]`. -/
theorem compress_to_int8_scale_pos_witness :
    ∃ out scale zero_point, Int8Tensor example_result (some 3) [2] out scale zero_point ∧
      0 < scale :=
  compress_to_int8_scale_pos example_tensor example_run

/-- C13: determinism on input values.  Two Float32 tensors with the same shape and
the same elements, whatever heaps they live in and whatever their own
`scale_factor` and `zero_pt` hold, are compressed to tensors with the same scale,
the same zero point and the same elements. -/
theorem compress_to_int8_deterministic {h1 h2 h1' h2' : Heap} {s1 s2 : Option Nat}
    {shape : List Int} {data : List ℚ} {q1 q2 : Nat}
    (hT1 : Float32Tensor h1 s1 shape data) (hT2 : Float32Tensor h2 s2 shape data)
    (hr1 : compress_to_int8 h1 s1 = some (h1', some q1))
    (hr2 : compress_to_int8 h2 s2 = some (h2', some q2)) :
    ∃ out scale zero_point, Int8Tensor h1' (some q1) shape out scale zero_point ∧
      Int8Tensor h2' (some q2) shape out scale zero_point := by
  obtain ⟨-, -, hI1, -, -⟩ := compress_returns hT1 hr1
  obtain ⟨-, -, hI2, -, -⟩ := compress_returns hT2 hr2
  exact ⟨_, _, _, hI1, hI2⟩

theorem second_tensor : Float32Tensor second_heap (some 2) [2] [-1 / 2, 509 / 2] := by
  refine ⟨⟨some 0, 1, 2, BufferMode.MODE_FLOAT32, ⟨some 1⟩, 7, 9⟩, ⟨rfl, rfl, Or.inr rfl, ?_,
    rfl, ?_⟩, rfl, rfl, rfl, ?_⟩
  · intro d hd
    simp at hd
    omega
  · unfold INT_MAX
    norm_num
  · intro x hx
    simp at hx
    unfold FLT_MAX
    rcases hx with rfl | rfl <;> norm_num

theorem second_run : compress_to_int8 second_heap (some 2) = some (second_result, some 3) := by
  rw [(compress_granted second_tensor rfl).1 example_representable]
  simp only [List.map_cons, List.map_nil, quantized_eq, example_raw_low, example_raw_high,
    example_scale, example_zero_point]
  rfl

/-- C13, witness: the same tensor in two heaps, with different values in its own
`scale_factor` and `zero_pt`. -/
theorem compress_to_int8_deterministic_witness :
    ∃ out scale zero_point, Int8Tensor example_result (some 3) [2] out scale zero_point ∧
      Int8Tensor second_result (some 3) [2] out scale zero_point :=
  compress_to_int8_deterministic example_tensor second_tensor example_run second_run

/-! ### C14: the memory report -/

theorem to_size_t_of_int (n : Int) (h1 : 0 ≤ n) (h2 : n ≤ INT_MAX) :
    to_size_t n = n.toNat := by
  unfold to_size_t SIZE_BITS
  unfold INT_MAX at h2
  rw [Int.emod_eq_of_lt h1 (by omega)]

/-- C14: `print_memory_stats` computes the percentage `(1 - size_i / size_f) * 100`
for every pair of sizes with `size_f > 0`; for 100 bytes against 25 bytes the
value is exactly 75, and so it is for the sizes `main` computes for any tensor of
`n >= 1` elements (`4 * n` bytes against `n` bytes). -/
theorem print_memory_stats_ratio (size_f size_i : Nat) (hpos : 0 < size_f) :
    print_memory_stats size_f size_i = some ((1 - (size_i : ℚ) / (size_f : ℚ)) * 100) ∧
      print_memory_stats 100 25 = some 75 ∧
      ∀ n : Int, 1 ≤ n → n ≤ INT_MAX →
        float_bytes n = 4 * n.toNat ∧ int8_bytes n = n.toNat ∧
          print_memory_stats (float_bytes n) (int8_bytes n) = some 75 := by
  have hgen : ∀ f i : Nat, 0 < f →
      print_memory_stats f i = some ((1 - (i : ℚ) / (f : ℚ)) * 100) := by
    intro f i hf
    have hne : (f : ℚ) ≠ 0 := by exact_mod_cast (Nat.pos_iff_ne_zero.mp hf)
    simp [print_memory_stats, fdiv, hne]
  refine ⟨hgen _ _ hpos, ?_, ?_⟩
  · rw [hgen 100 25 (by norm_num)]
    norm_num
  · intro n h1 h2
    have hs := to_size_t_of_int n (by omega) h2
    have hn : 0 < n.toNat := by omega
    have hb : n.toNat ≤ 2147483647 := by
      unfold INT_MAX at h2
      omega
    have hf : float_bytes n = 4 * n.toNat := by
      unfold float_bytes size_mul SIZEOF_FLOAT SIZE_BITS
      rw [hs, Nat.mod_eq_of_lt (by omega)]
      ring
    have hi : int8_bytes n = n.toNat := by
      unfold int8_bytes size_mul SIZEOF_INT8 SIZE_BITS
      rw [hs, Nat.mod_eq_of_lt (by omega)]
      ring
    refine ⟨hf, hi, ?_⟩
    rw [hf, hi, hgen _ _ (by omega)]
    have hq : ((n.toNat : Nat) : ℚ) ≠ 0 := by exact_mod_cast (Nat.pos_iff_ne_zero.mp hn)
    congr 1
    push_cast
    field_simp
    ring

/-- C14, witness: the report for 100 bytes against 25 bytes. -/
theorem print_memory_stats_ratio_witness :
    print_memory_stats 100 25 = some ((1 - ((25 : Nat) : ℚ) / ((100 : Nat) : ℚ)) * 100) ∧
      print_memory_stats 100 25 = some 75 ∧
      ∀ n : Int, 1 ≤ n → n ≤ INT_MAX →
        float_bytes n = 4 * n.toNat ∧ int8_bytes n = n.toNat ∧
          print_memory_stats (float_bytes n) (int8_bytes n) = some 75 :=
  print_memory_stats_ratio 100 25 (by norm_num)

/-! ### C15: the failure path of `init_buffer` -/

theorem init_buffer_data_refused (bs mid : List Block) (g : List Bool) (fr hdr : MicroBuffer)
    (mode : BufferMode) (ht : 0 ≤ hdr.total_size) :
    init_buffer_data ⟨bs ++ Block.header hdr :: mid, false :: g, fr⟩ (some bs.length) mode =
      some (⟨bs ++ Block.header (init_header mode hdr none) :: mid, g, fr⟩, none) := by
  cases mode <;>
    simp [init_buffer_data, deref_header, Heap.calloc, not_lt.mpr ht, Heap.alloc, assign_header,
      MemoryUnion.ptr_f, MemoryUnion.ptr_i, init_header]

theorem init_buffer_refused (bs : List Block) (a : Nat) (shape : List Int) (g : List Bool)
    (fr : MicroBuffer) (mode : BufferMode) (hdim : bs[a]? = some (Block.int_array shape))
    (hpos : ∀ d ∈ shape, 0 < d) (hmax : shape.prod ≤ INT_MAX) :
    init_buffer ⟨bs, true :: true :: false :: g, fr⟩ (some a) shape.length mode =
      some (⟨bs ++ [Block.header (init_header mode
          ⟨some (bs.length + 1), shape.length, shape.prod, mode, fr.mem, fr.scale_factor,
            fr.zero_pt⟩ none), Block.int_array shape], g, fr⟩, none) := by
  rw [init_buffer_head bs a shape (false :: g) fr mode hdim hpos hmax]
  exact init_buffer_data_refused bs [Block.int_array shape] g fr _ mode
    (le_of_lt (prod_pos_of_pos shape hpos))

/-- C15, the code at the failing input: with the data allocation refused,
`init_buffer` returns `NULL` and leaves the struct and the copied dimension
array allocated; no pointer to them is returned. -/
theorem init_buffer_leaks_on_failure :
    init_buffer refusing_heap (some 0) 2 BufferMode.MODE_FLOAT32 =
        some (refusing_result, none) ∧
      refusing_result.read (some 1) = some (Block.header
        ⟨some 2, 2, 1600000000, BufferMode.MODE_FLOAT32, ⟨none⟩, 0, 0⟩) ∧
      refusing_result.read (some 2) = some (Block.int_array [40000, 40000]) ∧
      refusing_result.live = refusing_heap.live + 2 := by
  refine ⟨?_, rfl, rfl, rfl⟩
  have := init_buffer_refused [Block.int_array [40000, 40000]] 0 [40000, 40000] []
    refusing_heap.fresh BufferMode.MODE_FLOAT32 rfl (by intro d hd; simp at hd; omega)
    (by unfold INT_MAX; norm_num)
  exact this

theorem destroy_buffer_main :
    destroy_buffer main_result (some 1) =
      some ⟨[Block.int_array [5, 5], Block.released, Block.released, Block.released], [],
        main_result.fresh⟩ := by
  rfl

/-! ### C16 to C20: where the elements land -/

theorem raw_of_min (data : List ℚ) : raw_of data (scan data).1 = -128 := by
  unfold raw_of zero_point_of
  rw [neg_div, c_round_neg]
  ring

theorem CLAMP_mono {x y : Int} (hxy : x ≤ y) :
    CLAMP x (-128) 127 ≤ CLAMP y (-128) 127 := by
  rw [CLAMP_eq_max_min, CLAMP_eq_max_min]
  omega

theorem quantized_mono (data : List ℚ) (hs : 0 < scale_of data) {x y : ℚ} (hxy : x ≤ y) :
    quantized data x ≤ quantized data y := by
  rw [quantized_eq, quantized_eq]
  apply CLAMP_mono
  unfold raw_of
  have := c_round_mono (div_le_div_of_nonneg_right hxy (le_of_lt hs))
  omega

/-- C17: the smallest element maps to the bottom code.  Every index that holds
the minimum source value is quantized to exactly `-128`. -/
theorem compress_to_int8_min_maps_to_bottom {h h' : Heap} {source : Option Nat}
    {shape : List Int} {data : List ℚ} {q : Nat} (hT : Float32Tensor h source shape data)
    (hres : compress_to_int8 h source = some (h', some q)) :
    ∃ out scale zero_point, Int8Tensor h' (some q) shape out scale zero_point ∧
      ∀ (i : Nat) (x : ℚ), data[i]? = some x → (∀ y ∈ data, x ≤ y) →
        out[i]? = some (-128) := by
  have hne := float32_nonempty hT
  obtain ⟨-, -, hI, -, -⟩ := compress_returns hT hres
  obtain ⟨mb, -, -, -, -, hb⟩ := hT
  refine ⟨_, _, _, hI, ?_⟩
  intro i x hi hmin
  have hsm := scan_min data hne hb
  have hx : x = (scan data).1 := le_antisymm (hmin _ hsm.1) (hsm.2 _ (List.getElem?_mem hi))
  rw [List.getElem?_map, hi]
  simp only [Option.map_some', quantized_eq, Option.some.injEq]
  rw [hx, raw_of_min]
  rfl

/-- C17, witness: the run on the tensor `[-0.5, 254.5]`. -/
theorem compress_to_int8_min_maps_to_bottom_witness :
    ∃ out scale zero_point, Int8Tensor example_result (some 3) [2] out scale zero_point ∧
      ∀ (i : Nat) (x : ℚ), ([-1 / 2, 509 / 2] : List ℚ)[i]? = some x →
        (∀ y ∈ ([-1 / 2, 509 / 2] : List ℚ), x ≤ y) → out[i]? = some (-128) :=
  compress_to_int8_min_maps_to_bottom example_tensor example_run

/-- C19: quantization preserves order.  For indices `i`, `j` with
`source[i] <= source[j]` the outputs satisfy `output[i] <= output[j]`. -/
theorem compress_to_int8_monotone {h h' : Heap} {source : Option Nat}
    {shape : List Int} {data : List ℚ} {q : Nat} (hT : Float32Tensor h source shape data)
    (hres : compress_to_int8 h source = some (h', some q)) :
    ∃ out scale zero_point, Int8Tensor h' (some q) shape out scale zero_point ∧
      out.length = data.length ∧
      ∀ (i j : Nat) (x y : ℚ) (a b : Int), data[i]? = some x → data[j]? = some y → x ≤ y →
        out[i]? = some a → out[j]? = some b → a ≤ b := by
  have hne := float32_nonempty hT
  obtain ⟨-, -, hI, -, -⟩ := compress_returns hT hres
  obtain ⟨mb, -, -, -, -, hb⟩ := hT
  refine ⟨_, _, _, hI, by simp, ?_⟩
  intro i j x y a b hi hj hxy ha hb'
  rw [List.getElem?_map, hi] at ha
  rw [List.getElem?_map, hj] at hb'
  simp only [Option.map_some', Option.some.injEq] at ha hb'
  rw [← ha, ← hb']
  exact quantized_mono data (scale_pos data hne hb) hxy

/-- C19, witness: the run on the tensor `[-0.5, 254.5]`. -/
theorem compress_to_int8_monotone_witness :
    ∃ out scale zero_point, Int8Tensor example_result (some 3) [2] out scale zero_point ∧
      out.length = ([-1 / 2, 509 / 2] : List ℚ).length ∧
      ∀ (i j : Nat) (x y : ℚ) (a b : Int), ([-1 / 2, 509 / 2] : List ℚ)[i]? = some x →
        ([-1 / 2, 509 / 2] : List ℚ)[j]? = some y → x ≤ y →
        out[i]? = some a → out[j]? = some b → a ≤ b :=
  compress_to_int8_monotone example_tensor example_run

end TensorManager
